import Mathlib

/-!
Verification of the Campus Climb ingestion pipeline.

This file gives a shallow embedding of the ingestion-relevant Python code
(`api/ai_filter.py`, `api/deduplicator.py`, `api/scheduler.py`,
`api/fetchers/rss_fetcher.py`, the `Opportunity` model of `api/index.py`)
and proves properties of the embedded definitions.

Modelling conventions:
* Python dictionaries of candidate opportunities are records whose fields are
  `Option String`: `none` means the key is absent, `some s` means the key is
  present with string value `s`.  The fetchers in this repository only ever
  put string values (never `None`) under these keys, so a present key always
  carries a string.
* SQLAlchemy queries (`.first()`) become `List.find?` over the list of stored
  records, which preserves insertion order exactly as the queries scan the
  table in order.
* Network calls are parameterised by an oracle describing the outcome of the
  call (response, timeout, connection error, other exception), so that the
  purely local control flow around them is embedded exactly.
* Floats (confidence scores, similarity ratios) are modelled as rationals.
* `fuzz.ratio` from the fuzzywuzzy library (an external dependency used by
  `titles_similar`) is modelled by its documented definition
  `round(100 * (len1+len2-dist)/(len1+len2))` with `dist` the edit distance
  that charges 2 per substitution, which equals `round(200*lcs/(len1+len2))`.
-/

set_option autoImplicit false

namespace CampusClimb

/-! ### Python string primitives

These are implemented over `List Char` (rather than the positional loops of
core's `String` functions, which are defined by well-founded recursion and
do not evaluate inside the kernel) so that every theorem below can be checked
on concrete inputs by `decide`. -/

/-- Lower-case an ASCII letter, as Python `str.lower` on the pipeline's
ASCII content. -/
def charLower (c : Char) : Char :=
  if 'A' ≤ c ∧ c ≤ 'Z' then Char.ofNat (c.toNat + 32) else c

/-- Python `s.lower()`. -/
def pyLower (s : String) : String := String.mk (s.toList.map charLower)

/-- The character list with leading and trailing whitespace removed. -/
def trimChars (cs : List Char) : List Char :=
  ((cs.dropWhile Char.isWhitespace).reverse.dropWhile Char.isWhitespace).reverse

/-- Python `s.strip()`. -/
def pyStrip (s : String) : String := String.mk (trimChars s.toList)

/-- Python `s[:n]`. -/
def pyTake (s : String) (n : Nat) : String := String.mk (s.toList.take n)

/-- Does `needle` occur at the head of `hay`? -/
def startsList : List Char → List Char → Bool
  | [], _ => true
  | _ :: _, [] => false
  | p :: ps, c :: cs => p = c && startsList ps cs

/-- Does `needle` occur anywhere in `hay`? -/
def listContains (needle : List Char) : List Char → Bool
  | [] => needle.isEmpty
  | c :: t => startsList needle (c :: t) || listContains needle t

/-- Python `needle in hay` (substring containment). -/
def strContains (hay needle : String) : Bool :=
  listContains needle.toList hay.toList

/-- Python `s.startswith(pre)`. -/
def pyStartsWith (s pre : String) : Bool := startsList pre.toList s.toList

/-- Python `s.split()`: split on whitespace, dropping empty pieces. -/
def pyWords (s : String) : List String :=
  let groups := s.toList.foldr (fun c acc =>
    match acc with
    | [] => if c.isWhitespace then [[]] else [[c]]
    | g :: gs => if c.isWhitespace then [] :: g :: gs else (c :: g) :: gs) []
  (groups.map String.mk).filter (fun t => !t.isEmpty)

/-- Python `s.split(sep)` for a one-character separator (keeps empty
pieces). -/
def splitOnChar (sep : Char) (s : String) : List String :=
  (s.toList.foldr (fun c acc =>
    match acc with
    | [] => [[c]]
    | g :: gs => if c = sep then [] :: g :: gs else (c :: g) :: gs) [[]]).map
    String.mk

theorem dropWhile_self_dropWhile (p : Char → Bool) (l : List Char) :
    (l.dropWhile p).dropWhile p = l.dropWhile p := by
  induction l with
  | nil => rfl
  | cons c t ih =>
      by_cases h : p c
      · simp [List.dropWhile, h, ih]
      · simp [List.dropWhile, h]

theorem dropWhile_of_isPrefix_of_dropWhile_self (p : Char → Bool)
    {a b : List Char} (ha : a.dropWhile p = a) (hpre : b <+: a) :
    b.dropWhile p = b := by
  cases b with
  | nil => rfl
  | cons c t =>
      obtain ⟨rest, hrest⟩ := hpre
      by_cases h : p c
      · exfalso
        have hlen : a.length ≤ (t ++ rest).length := by
          calc a.length = (a.dropWhile p).length := by rw [ha]
            _ = ((t ++ rest).dropWhile p).length := by
                  rw [← hrest]; simp [List.dropWhile, h]
            _ ≤ (t ++ rest).length := (List.dropWhile_suffix p).length_le
        rw [← hrest] at hlen
        simp at hlen
      · simp [List.dropWhile, h]

theorem trimChars_idem (cs : List Char) :
    trimChars (trimChars cs) = trimChars cs := by
  have key : ∀ a : List Char, a.dropWhile Char.isWhitespace = a →
      trimChars ((a.reverse.dropWhile Char.isWhitespace).reverse) =
        (a.reverse.dropWhile Char.isWhitespace).reverse := by
    intro a haself
    have hsuf : a.reverse.dropWhile Char.isWhitespace <:+ a.reverse :=
      List.dropWhile_suffix _
    have hpre : (a.reverse.dropWhile Char.isWhitespace).reverse <+: a :=
      List.reverse_suffix.mp (by simpa using hsuf)
    have hstep1 := dropWhile_of_isPrefix_of_dropWhile_self
      Char.isWhitespace haself hpre
    show (((a.reverse.dropWhile Char.isWhitespace).reverse.dropWhile
        Char.isWhitespace).reverse.dropWhile Char.isWhitespace).reverse = _
    rw [hstep1]
    simp only [List.reverse_reverse]
    rw [dropWhile_self_dropWhile]
  exact key (cs.dropWhile Char.isWhitespace) (dropWhile_self_dropWhile _ cs)

theorem pyStrip_idem (s : String) : pyStrip (pyStrip s) = pyStrip s := by
  show String.mk (trimChars (trimChars s.toList)) = String.mk (trimChars s.toList)
  rw [trimChars_idem]

/-- Python truthiness of an optional string: present and non-empty. -/
def strTruthy (v : Option String) : Bool :=
  match v with
  | none => false
  | some s => !s.isEmpty

/-- Python `opp_dict.get(k) or ''` for an optional string field. -/
def orEmpty (v : Option String) : String := v.getD ""

/-! ### Longest common subsequence and the fuzzywuzzy ratio -/

/-- One row of the LCS dynamic program: given the previous row (length
`bs.length + 1`), the value to the left, and the characters of the second
string, produce the remaining entries of the current row. -/
def lcsRowGo (a : Char) : List Char → Nat → List Nat → List Nat
  | [], _, _ => []
  | b :: bs, left, pPrev :: pRest =>
      let here := if a = b then pPrev + 1 else max left (pRest.headD 0)
      here :: lcsRowGo a bs here pRest
  | _ :: _, _, [] => []

/-- Length of the longest common subsequence of two character lists. -/
def lcsLen (s t : List Char) : Nat :=
  let row0 : List Nat := List.replicate (t.length + 1) 0
  let lastRow := s.foldl (fun prev a => 0 :: lcsRowGo a t 0 prev) row0
  lastRow.getLastD 0

/-- `round(a / b)` on naturals, rounding half to even as Python's `round`
(`b` is positive at every call site). -/
def pyRoundDiv (a b : Nat) : Nat :=
  let q := a / b
  let r := a % b
  if 2 * r < b then q
  else if b < 2 * r then q + 1
  else if q % 2 = 0 then q else q + 1

/-- `fuzz.ratio(s, t)`: the integer percentage `round(200*lcs/(|s|+|t|))`
computed by the fuzzywuzzy library (`100` when both strings are empty). -/
def fuzzRatioPct (s t : String) : Nat :=
  let n := s.toList.length + t.toList.length
  if n = 0 then 100
  else pyRoundDiv (200 * lcsLen s.toList t.toList) n

/-! ### `api/ai_filter.py`: parsing the classifier response -/

/-- Result of one classifier invocation, the dictionary returned by
`classify_opportunity`. -/
structure Classification where
  is_opportunity : Option Bool
  confidence : ℚ
  reasoning : String
  error : Option String
  deriving DecidableEq, Repr

/-- Outcome of the HTTP call to the Ollama endpoint. -/
inductive OllamaOutcome where
  /-- 2xx response whose JSON `response` field is the given text. -/
  | ok (text : String)
  /-- `requests.exceptions.Timeout`. -/
  | timeout
  /-- `requests.exceptions.ConnectionError`. -/
  | connectionError
  /-- any other exception (HTTP error status, malformed body, ...). -/
  | otherError (msg : String)
  deriving DecidableEq, Repr

/-- A transport-level failure: anything but a usable response. -/
def OllamaOutcome.isTransportFailure : OllamaOutcome → Bool
  | .ok _ => false
  | _ => true

/-- Drop a literal prefix from a character list, or fail. -/
def dropLit : List Char → List Char → Option (List Char)
  | [], cs => some cs
  | _ :: _, [] => none
  | p :: ps, c :: cs => if p = c then dropLit ps cs else none

/-- Skip whitespace (`\s*`). -/
def skipWs (cs : List Char) : List Char := cs.dropWhile Char.isWhitespace

/-- Try to match `"is_opportunity"\s*:\s*(true|false)` at the head of an
already lower-cased character list. -/
def tryOppAt (cs : List Char) : Option Bool :=
  match dropLit "\"is_opportunity\"".toList cs with
  | none => none
  | some cs =>
    match dropLit [':'] (skipWs cs) with
    | none => none
    | some cs =>
      let cs := skipWs cs
      match dropLit "true".toList cs with
      | some _ => some true
      | none =>
        match dropLit "false".toList cs with
        | some _ => some false
        | none => none

/-- Leftmost match of the `is_opportunity` regular expression (the text is
lower-cased by the caller, modelling `re.IGNORECASE`). -/
def searchOpp : List Char → Option Bool
  | [] => none
  | c :: rest =>
    match tryOppAt (c :: rest) with
    | some b => some b
    | none => searchOpp rest

/-- Characters allowed in the `[\d.]+` capture group. -/
def isDigitOrDot (c : Char) : Bool := c.isDigit || c = '.'

/-- Try to match `"confidence"\s*:\s*([\d.]+)` at the head, returning the
capture. -/
def tryConfAt (cs : List Char) : Option String :=
  match dropLit "\"confidence\"".toList cs with
  | none => none
  | some cs =>
    match dropLit [':'] (skipWs cs) with
    | none => none
    | some cs =>
      let cap := (skipWs cs).takeWhile isDigitOrDot
      if cap.isEmpty then none else some (String.mk cap)

/-- Leftmost match of the `confidence` regular expression. -/
def searchConf : List Char → Option String
  | [] => none
  | c :: rest =>
    match tryConfAt (c :: rest) with
    | some s => some s
    | none => searchConf rest

/-- Try to match `"reasoning"\s*:\s*"([^"]*)"` at the head. -/
def tryReasonAt (cs : List Char) : Option String :=
  match dropLit "\"reasoning\"".toList cs with
  | none => none
  | some cs =>
    match dropLit [':'] (skipWs cs) with
    | none => none
    | some cs =>
      match dropLit ['"'] (skipWs cs) with
      | none => none
      | some cs =>
        let cap := cs.takeWhile (fun c => c ≠ '"')
        match dropLit ['"'] (cs.dropWhile (fun c => c ≠ '"')) with
        | none => none
        | some _ => some (String.mk cap)

/-- Leftmost match of the `reasoning` regular expression. -/
def searchReason : List Char → Option String
  | [] => none
  | c :: rest =>
    match tryReasonAt (c :: rest) with
    | some s => some s
    | none => searchReason rest

/-- Parse a run of digits as a natural number (the run is non-empty for all
callers). -/
def digitsToNat (cs : List Char) : Nat :=
  cs.foldl (fun acc c => acc * 10 + (c.toNat - '0'.toNat)) 0

/-- Python `float(s)` restricted to the shapes produced by the pipeline:
an optional sign, digits and at most one decimal point, with at least one
digit.  Returns `none` where Python raises `ValueError`. -/
def pyFloat (s : String) : Option ℚ :=
  let cs := s.toList
  let (neg, cs) := match cs with
    | '-' :: rest => (true, rest)
    | _ => (false, cs)
  if cs.any (fun c => !(isDigitOrDot c)) then none
  else if (cs.filter (fun c => c = '.')).length > 1 then none
  else if (cs.filter Char.isDigit).length = 0 then none
  else
    let intPart := cs.takeWhile Char.isDigit
    let fracPart := (cs.dropWhile Char.isDigit).drop 1
    let v : ℚ := mkRat
      (digitsToNat intPart * 10 ^ fracPart.length + digitsToNat fracPart)
      (10 ^ fracPart.length)
    some (if neg then -v else v)

/-- Clamp a confidence to `[0, 1]` (`max(0.0, min(1.0, confidence))`). -/
def clampConf (q : ℚ) : ℚ := max 0 (min 1 q)

/-! A minimal JSON value for the second, full-JSON fallback of
`parse_classification_response`.  The regular expression
`\{[^{}]*"is_opportunity"[^{}]*\}` can only capture a brace-free span, so the
object is necessarily flat; values other than booleans, `null`, simple
numbers and escape-free strings are treated as parse failures. -/

inductive JVal where
  | jbool (b : Bool)
  | jnull
  | jnum (q : ℚ)
  | jstr (s : String)
  deriving DecidableEq, Repr

/-- Parse a JSON string literal (no escape sequences). -/
def parseJString : List Char → Option (String × List Char)
  | '"' :: cs =>
      let body := cs.takeWhile (fun c => c ≠ '"')
      match cs.dropWhile (fun c => c ≠ '"') with
      | '"' :: rest => some (String.mk body, rest)
      | _ => none
  | _ => none

/-- Parse a simple JSON number: optional `-`, digits, optional `.digits`. -/
def parseJNumber (cs : List Char) : Option (ℚ × List Char) :=
  let (neg, cs) := match cs with
    | '-' :: rest => (true, rest)
    | _ => (false, cs)
  let intPart := cs.takeWhile Char.isDigit
  if intPart.isEmpty then none
  else
    let cs := cs.dropWhile Char.isDigit
    let (fracPart, rest) := match cs with
      | '.' :: cs2 =>
          (cs2.takeWhile Char.isDigit, cs2.dropWhile Char.isDigit)
      | _ => ([], cs)
    if cs ≠ rest ∧ fracPart.isEmpty then none
    else
      let v : ℚ := mkRat
        (digitsToNat intPart * 10 ^ fracPart.length + digitsToNat fracPart)
        (10 ^ fracPart.length)
      some (if neg then -v else v, rest)

/-- Parse one JSON value of the supported shapes. -/
def parseJVal (cs : List Char) : Option (JVal × List Char) :=
  match dropLit "true".toList cs with
  | some rest => some (.jbool true, rest)
  | none =>
  match dropLit "false".toList cs with
  | some rest => some (.jbool false, rest)
  | none =>
  match dropLit "null".toList cs with
  | some rest => some (.jnull, rest)
  | none =>
  match parseJString cs with
  | some (s, rest) => some (.jstr s, rest)
  | none =>
  match parseJNumber cs with
  | some (q, rest) => some (.jnum q, rest)
  | none => none

/-- Parse the `"key": value (, "key": value)*` body of a flat object.
`fuel` bounds the recursion by the input length. -/
def parsePairs : Nat → List Char → Option (List (String × JVal) × List Char)
  | 0, _ => none
  | fuel + 1, cs =>
    match parseJString (skipWs cs) with
    | none => none
    | some (k, cs) =>
      match dropLit [':'] (skipWs cs) with
      | none => none
      | some cs =>
        match parseJVal (skipWs cs) with
        | none => none
        | some (v, cs) =>
          match skipWs cs with
          | ',' :: cs2 =>
            match parsePairs fuel cs2 with
            | some (ps, rest) => some ((k, v) :: ps, rest)
            | none => none
          | rest => some ([(k, v)], rest)

/-- `json.loads` for a flat object, requiring the whole input consumed. -/
def jsonLoads (s : String) : Option (List (String × JVal)) :=
  let cs := skipWs s.toList
  match cs with
  | '{' :: cs =>
    (match skipWs cs with
     | '}' :: rest => if (skipWs rest).isEmpty then some [] else none
     | _ =>
       match parsePairs (cs.length + 1) cs with
       | none => none
       | some (ps, rest) =>
         match skipWs rest with
         | '}' :: rest2 => if (skipWs rest2).isEmpty then some ps else none
         | _ => none)
  | _ => none

/-- Python `dict` lookup (later duplicate keys win, as in `json.loads`). -/
def jGet (ps : List (String × JVal)) (k : String) : Option JVal :=
  (ps.reverse.find? (fun p => p.1 = k)).map (·.2)

/-- Python `bool(v)` on a JSON value. -/
def pyBoolOfJVal : JVal → Bool
  | .jbool b => b
  | .jnull => false
  | .jnum q => q ≠ 0
  | .jstr s => !s.isEmpty

/-- Python `str(v)` on a JSON value (numbers rendered by `Rat`'s printer,
a harmless deviation on a field that is only ever echoed back). -/
def pyStrOfJVal : JVal → String
  | .jbool true => "True"
  | .jbool false => "False"
  | .jnull => "None"
  | .jnum q => toString q
  | .jstr s => s

/-- Leftmost match of `\{[^{}]*"is_opportunity"[^{}]*\}`: a brace, a
brace-free run containing the key, a closing brace. -/
def findJsonSpan : List Char → Option String
  | [] => none
  | '{' :: rest =>
      let run := rest.takeWhile (fun c => c ≠ '{' ∧ c ≠ '}')
      let after := rest.dropWhile (fun c => c ≠ '{' ∧ c ≠ '}')
      (match after with
       | '}' :: _ =>
         if strContains (String.mk run) "\"is_opportunity\"" then
           some (String.mk ('{' :: (run ++ ['}'])))
         else findJsonSpan rest
       | _ => findJsonSpan rest)
  | _ :: rest => findJsonSpan rest

/-- The triple extracted from the classifier's free-text answer. -/
structure ParsedClassification where
  is_opportunity : Bool
  confidence : ℚ
  reasoning : String
  deriving DecidableEq, Repr

/-- `parse_classification_response` (ai_filter.py).  `Except.error` models an
exception escaping the function (an unparsable `float`), which the caller
`classify_opportunity` catches. -/
def parse_classification_response (text : String) :
    Except String ParsedClassification :=
  match searchOpp (pyLower text).toList with
  | some b =>
    let confidence : Except String ℚ :=
      match searchConf text.toList with
      | none => .ok (mkRat 1 2)
      | some cap =>
        match pyFloat cap with
        | some q => .ok (clampConf q)
        | none => .error ("could not convert string to float: " ++ cap)
    (match confidence with
     | .error e => .error e
     | .ok conf =>
       let reasoning := (searchReason text.toList).getD "Parsed from response"
       .ok ⟨b, conf, reasoning⟩)
  | none =>
    let fromJson : Option (Except String ParsedClassification) :=
      match findJsonSpan text.toList with
      | none => none
      | some span =>
        match jsonLoads span with
        | none => none
        | some obj =>
          let isOpp := pyBoolOfJVal ((jGet obj "is_opportunity").getD (.jbool false))
          (match (jGet obj "confidence").getD (.jnum (mkRat 1 2)) with
           | .jnull => some (.error "float() argument must not be None")
           | .jbool b => some (.ok ⟨isOpp, clampConf (if b then 1 else 0),
               pyStrOfJVal ((jGet obj "reasoning").getD (.jstr "No reasoning provided"))⟩)
           | .jnum q => some (.ok ⟨isOpp, clampConf q,
               pyStrOfJVal ((jGet obj "reasoning").getD (.jstr "No reasoning provided"))⟩)
           | .jstr s =>
             match pyFloat s with
             | none => none
             | some q => some (.ok ⟨isOpp, clampConf q,
                 pyStrOfJVal ((jGet obj "reasoning").getD (.jstr "No reasoning provided"))⟩))
    match fromJson with
    | some r => r
    | none =>
      .ok ⟨false, mkRat 3 10,
        "Parse failed, rejecting to avoid false positive: " ++ pyTake text 100⟩

/-! ### `api/config.py` and the candidate dictionary -/

/-- The configuration fields read by the gate (`api/config.py`). -/
structure Config where
  aiFilterEnabled : Bool
  aiFilterMinConfidence : ℚ
  aiFilterRejectOnError : Bool
  sourcesSkipAiFilter : List String
  aiFilterTimeout : Nat
  deriving DecidableEq, Repr

/-- A candidate opportunity dictionary as produced by a fetcher.  Each field
is a key of the Python dict: `none` = key absent, `some s` = key present with
string value `s` (`auto_fetched` carries a boolean). -/
structure OppDict where
  title : Option String := none
  company : Option String := none
  location : Option String := none
  type : Option String := none
  category : Option String := none
  description : Option String := none
  requirements : Option String := none
  salary : Option String := none
  deadline : Option String := none
  application_url : Option String := none
  source : Option String := none
  source_id : Option String := none
  source_url : Option String := none
  auto_fetched : Option Bool := none
  deriving DecidableEq, Repr

/-! ### `api/ai_filter.py`: classification and the gate -/

/-- `classify_opportunity` (ai_filter.py).  The HTTP call to Ollama is
parameterised by `oracle`; everything around it is the function's own
control flow. -/
def classify_opportunity (cfg : Config) (oracle : OllamaOutcome)
    (title _description _source : String) : Classification :=
  if !cfg.aiFilterEnabled then
    ⟨none, 0, "AI filtering disabled", some "AI filtering is disabled"⟩
  else if pyStrip title = "" then
    ⟨some false, 1, "Empty title - not an opportunity", none⟩
  else
    match oracle with
    | .timeout =>
        ⟨none, 0, "AI classification timed out",
         some ("Request timed out after " ++ toString cfg.aiFilterTimeout ++ " seconds")⟩
    | .connectionError =>
        ⟨none, 0, "Cannot connect to Ollama",
         some "Cannot connect to Ollama. Make sure Ollama is running."⟩
    | .otherError msg =>
        ⟨none, 0, "AI classification error: " ++ msg, some msg⟩
    | .ok text =>
        if text = "" then
          ⟨none, 0, "AI classification error: Empty response from Ollama",
           some "Empty response from Ollama"⟩
        else
          match parse_classification_response text with
          | .ok r => ⟨some r.is_opportunity, r.confidence, r.reasoning, none⟩
          | .error msg =>
              ⟨none, 0, "AI classification error: " ++ msg, some msg⟩

/-- `keyword_based_filter_fallback` (ai_filter.py). -/
def keyword_based_filter_fallback (title description _sourceName : String) : Bool :=
  let combined := pyLower (title ++ " " ++ description)
  let titleLower := pyStrip (pyLower title)
  let questionStarters := ["how", "what", "where", "when", "why", "who",
    "which", "can", "should", "do", "does", "is", "are"]
  let hiringWords := ["apply", "application", "hiring", "position", "role",
    "job opening"]
  if questionStarters.any (fun s => pyStartsWith titleLower (s ++ " ")) &&
     !(hiringWords.any (fun x => strContains combined x)) then
    false
  else
    let questionPatterns := ["how do i", "how can i", "how to", "what is",
      "what are", "looking for advice", "need advice", "any suggestions",
      "can someone help", "i\x27m looking for", "i am looking for",
      "does anyone know", "has anyone"]
    let hiringWordsTagged := hiringWords ++ ["[hiring]"]
    if questionPatterns.any (fun p => strContains combined p &&
        !(hiringWordsTagged.any (fun x => strContains combined x))) then
      false
    else
      let excludePatterns := ["[for hire]", "for hire", "[for-hire]",
        "hire me", "open to work", "job seeker", "my services"]
      if excludePatterns.any (fun p => strContains combined p &&
          !(strContains combined "[hiring]")) then
        false
      else
        let strong := ["[hiring]", "we are hiring", "job opening",
          "position available", "apply now", "join our team",
          "internship program", "workshop on", "conference:", "competition:"]
        strong.any (fun p => strContains combined p)

/-- The candidate title computed by `should_save_opportunity`:
`(opp_dict.get('title') or '').strip()`. -/
def gateTitle (d : OppDict) : String := pyStrip (orEmpty d.title)

/-- The candidate description computed by `should_save_opportunity`:
`(opp_dict.get('description') or '')[:500]`. -/
def gateDescription (d : OppDict) : String := pyTake (orEmpty d.description) 500

/-- The candidate source computed by `should_save_opportunity`:
`(opp_dict.get('source') or 'unknown').strip().lower()`. -/
def gateSource (d : OppDict) : String := pyLower (pyStrip (d.source.getD "unknown"))

/-- `should_save_opportunity` (ai_filter.py), the Classification Gate. -/
def should_save_opportunity (cfg : Config) (oracle : OllamaOutcome)
    (d : OppDict) : Bool :=
  let title := gateTitle d
  let description := gateDescription d
  let source := gateSource d
  if cfg.sourcesSkipAiFilter.contains source then true
  else if !cfg.aiFilterEnabled then true
  else if title = "" then false
  else
    let classification :=
      classify_opportunity cfg oracle title description (d.source.getD "unknown")
    match classification.is_opportunity with
    | some true =>
        if classification.confidence < cfg.aiFilterMinConfidence then false
        else true
    | some false => false
    | none =>
        if cfg.aiFilterRejectOnError then false
        else keyword_based_filter_fallback title description source

/-! ### The `Opportunity` model (`api/index.py`) -/

/-- A stored opportunity record.  Nullable columns are `Option`s;
`title`/`company`/`location`/`type`/`category`/`description` are
non-nullable columns.  `last_fetched`/`created_at` are abstract instants. -/
structure Opportunity where
  id : Nat
  title : String
  company : String
  location : String
  type : String
  category : String
  description : String
  requirements : Option String := none
  salary : Option String := none
  deadline : Option String := none
  application_url : Option String := none
  source : Option String := none
  source_id : Option String := none
  source_url : Option String := none
  last_fetched : Option Nat := none
  auto_fetched : Bool := false
  created_at : Nat := 0
  is_deleted : Option Bool := some false
  deriving DecidableEq, Repr

/-! ### `api/deduplicator.py` -/

/-- `titles_similar` (deduplicator.py).  `fuzzLib` records whether the
fuzzywuzzy library imports (the `try`/`except ImportError`). -/
def titles_similar (fuzzLib : Bool) (title1 title2 : String) (threshold : ℚ) : Bool :=
  if fuzzLib then
    mkRat (fuzzRatioPct (pyLower title1) (pyLower title2)) 100 ≥ threshold
  else
    let t1 := pyStrip (pyLower title1)
    let t2 := pyStrip (pyLower title2)
    if t1 = t2 then true
    else if strContains t2 t1 || strContains t1 t2 then true
    else
      let words1 := (pyWords t1).dedup
      let words2 := (pyWords t2).dedup
      if words1.length > 0 ∧ words2.length > 0 then
        let overlap := (words1.filter (fun w => words2.contains w)).length
        mkRat overlap (max words1.length words2.length) ≥ threshold
      else false

/-- The exact identity query of `deduplicate_opportunity`:
`filter_by(source=source, source_id=source_id, is_deleted=False)`. -/
def exactMatchPred (src sid : String) (o : Opportunity) : Bool :=
  o.source == some src && o.source_id == some sid && o.is_deleted == some false

/-- The fuzzy query of `deduplicate_opportunity`: title and company
`ilike '%..%'` (case-insensitive containment), equal type, and
`is_deleted == False or is_deleted is None`. -/
def fuzzyMatchPred (title company oppType : String) (o : Opportunity) : Bool :=
  strContains (pyLower o.title) (pyLower title) &&
  strContains (pyLower o.company) (pyLower company) &&
  o.type == oppType &&
  (o.is_deleted == some false || o.is_deleted == none)

/-- `deduplicate_opportunity` (deduplicator.py): returns
`(existing_or_none, is_duplicate)` against the stored records `db`. -/
def deduplicate_opportunity (fuzzLib : Bool) (db : List Opportunity)
    (d : OppDict) : Option Opportunity × Bool :=
  let title := pyStrip (d.title.getD "")
  let company := pyStrip (d.company.getD "")
  let oppType := d.type.getD ""
  let exact : Option Opportunity :=
    match d.source, d.source_id with
    | some src, some sid =>
        if src ≠ "" ∧ sid ≠ "" then db.find? (exactMatchPred src sid) else none
    | _, _ => none
  match exact with
  | some e => (some e, true)
  | none =>
    if title ≠ "" ∧ company ≠ "" then
      match db.find? (fuzzyMatchPred title company oppType) with
      | some e =>
          if titles_similar fuzzLib title e.title (mkRat 85 100) then (some e, true)
          else (none, false)
      | none => (none, false)
    else (none, false)

/-- `datetime.strptime(s, '%Y-%m-%d').date()`: year, month and day fields
separated by `-`, with calendar validation.  Returns the normalized string. -/
def parseYMD (s : String) : Option String :=
  match splitOnChar '-' s with
  | [y, m, d] =>
    if y ≠ "" ∧ y.length ≤ 4 ∧ y.toList.all Char.isDigit ∧
       m ≠ "" ∧ m.length ≤ 2 ∧ m.toList.all Char.isDigit ∧
       d ≠ "" ∧ d.length ≤ 2 ∧ d.toList.all Char.isDigit then
      let yn := digitsToNat y.toList
      let mn := digitsToNat m.toList
      let dn := digitsToNat d.toList
      let leap := (yn % 4 = 0 ∧ yn % 100 ≠ 0) ∨ yn % 400 = 0
      let daysInMonth :=
        if mn = 2 then (if leap then 29 else 28)
        else if mn = 4 ∨ mn = 6 ∨ mn = 9 ∨ mn = 11 then 30 else 31
      if 1 ≤ mn ∧ mn ≤ 12 ∧ 1 ≤ dn ∧ dn ≤ daysInMonth then some s else none
    else none
  | _ => none

/-- `dict.get(k, existing_value)` for a nullable stored column: a present key
overwrites (even with an empty value), an absent key keeps the old value. -/
def updOpt (v : Option String) (old : Option String) : Option String :=
  match v with
  | some s => some s
  | none => old

/-- The field-by-field update of an existing record on a duplicate hit
(`save_or_update_opportunity`, update branch). -/
def applyUpdate (d : OppDict) (existing : Opportunity) (now : Nat) : Opportunity :=
  { existing with
    title := d.title.getD existing.title
    company := d.company.getD existing.company
    location := d.location.getD existing.location
    type := d.type.getD existing.type
    category := d.category.getD existing.category
    description := d.description.getD existing.description
    requirements := updOpt d.requirements existing.requirements
    salary := updOpt d.salary existing.salary
    application_url := updOpt d.application_url existing.application_url
    source_url := updOpt d.source_url existing.source_url
    last_fetched := some now
    auto_fetched := d.auto_fetched.getD true
    deadline :=
      match d.deadline with
      | some ds =>
          if ds ≠ "" then
            match parseYMD ds with
            | some p => some p
            | none => existing.deadline
          else existing.deadline
      | none => existing.deadline }

/-- The record built on a dedup miss (`save_or_update_opportunity`, create
branch), after validation has passed. -/
def createRecord (d : OppDict) (now : Nat) (newId : Nat) : Opportunity :=
  let description := pyStrip (d.description.getD "")
  { id := newId
    title := pyStrip (d.title.getD "")
    company := pyStrip (d.company.getD "")
    location := pyStrip (d.location.getD "")
    type := d.type.getD "job"
    category := d.category.getD "General"
    description := if description = "" then "No description provided" else description
    requirements := d.requirements
    salary := d.salary
    application_url := d.application_url
    source := d.source
    source_id := d.source_id
    source_url := d.source_url
    auto_fetched := d.auto_fetched.getD true
    last_fetched := some now
    created_at := now
    is_deleted := some false
    deadline :=
      match d.deadline with
      | some ds =>
          if ds ≠ "" then
            match parseYMD ds with
            | some p => some p
            | none => none
          else none
      | none => none }

/-- `db.session.commit()` after mutating `existing` in place: the record at
`existing`'s identity is replaced, every other record is untouched. -/
def commitUpdate (db : List Opportunity) (oldId : Nat) (upd : Opportunity) :
    List Opportunity :=
  db.map (fun o => if o.id = oldId then upd else o)

/-- `save_or_update_opportunity` (deduplicator.py): dedup, then update the
existing record or validate and create a new one.  `Except.error` models a
raised `ValueError`; the result carries the record, `is_new`, and the stored
records after commit. -/
def save_or_update_opportunity (fuzzLib : Bool) (db : List Opportunity)
    (d : OppDict) (now : Nat) (newId : Nat) :
    Except String (Opportunity × Bool × List Opportunity) :=
  match deduplicate_opportunity fuzzLib db d with
  | (some existing, true) =>
      let upd := applyUpdate d existing now
      .ok (upd, false, commitUpdate db existing.id upd)
  | _ =>
      let title := pyStrip (d.title.getD "")
      let company := pyStrip (d.company.getD "")
      let location := pyStrip (d.location.getD "")
      if title = "" then .error "Title is required but was empty"
      else if company = "" then .error "Company is required but was empty"
      else if location = "" then .error "Location is required but was empty"
      else
        let newOpp := createRecord d now newId
        .ok (newOpp, true, db ++ [newOpp])

/-! ### `api/fetchers/rss_fetcher.py`: `RSSFetcher.fetch` -/

/-- Outcome of parsing one feed entry inside the `for entry in feed.entries`
loop: a normalized candidate, a skipped entry (`parse_entry` returned
`None`), or an exception raised while parsing (caught per item). -/
inductive EntryOutcome where
  | parsed (o : OppDict)
  | skipped
  | raisesInParse (msg : String)
  deriving DecidableEq, Repr

/-- Outcome of `requests.get` plus `feedparser.parse` for one fetch. -/
inductive TransportResult where
  /-- a response with the given status code and parsed feed entries -/
  | response (status : Nat) (entries : List EntryOutcome)
  /-- `requests.exceptions.RequestException` raised by `requests.get` -/
  | raisesRequest (msg : String)
  /-- any other exception -/
  | raisesOther (msg : String)
  deriving DecidableEq, Repr

/-- `RSSFetcher.normalize`: the base normalize is the identity, then the
fetcher stamps its source name and `auto_fetched=True`. -/
def rssNormalize (sourceName : String) (o : OppDict) : OppDict :=
  { o with source := some sourceName, auto_fetched := some true }

/-- `RSSFetcher.fetch` (rss_fetcher.py): returns the candidate list and the
fetcher's `error_count` after the call (starting from `errorCount`).
A 403 returns an empty list without touching the counter; any other
4xx/5xx raises through `raise_for_status` and is caught as a
`RequestException`; per-entry parse exceptions drop the entry and
continue. -/
def RSSFetcher.fetch (sourceName : String) (t : TransportResult)
    (errorCount : Nat) : List OppDict × Nat :=
  match t with
  | .raisesRequest _ => ([], errorCount + 1)
  | .raisesOther _ => ([], errorCount + 1)
  | .response status entries =>
      if status = 403 then ([], errorCount)
      else if 400 ≤ status then ([], errorCount + 1)
      else
        let opportunities := entries.foldl (fun acc e =>
          match e with
          | .parsed o => acc ++ [rssNormalize sourceName o]
          | .skipped => acc
          | .raisesInParse _ => acc) []
        (opportunities, errorCount)

/-! ### `api/scheduler.py` -/

/-- One entry of the `FetchLogger`. -/
structure LogEntry where
  timestamp : Nat
  source : String
  fetched : Nat
  new : Nat
  updated : Nat
  errors : Nat
  deriving DecidableEq, Repr

/-- `FetchLogger.log`: append the entry to `self.logs`. -/
def FetchLogger.log (logs : List LogEntry) (e : LogEntry) : List LogEntry :=
  logs ++ [e]

/-- `FetchLogger.get_logs`: `self.logs[-limit:] if len(self.logs) > limit
else self.logs`.  Python's `logs[-0:]` is the whole list. -/
def FetchLogger.get_logs (logs : List LogEntry) (limit : Nat) : List LogEntry :=
  if logs.length > limit then
    (if limit = 0 then logs else logs.drop (logs.length - limit))
  else logs

/-- `get_fetch_logs(limit=50)` (scheduler.py). -/
def get_fetch_logs (logs : List LogEntry) (limit : Nat) : List LogEntry :=
  FetchLogger.get_logs logs limit

/-- State of the per-source save loop in `fetch_all_opportunities`:
the stored records, a fresh-id supply for the autoincrement column, and the
`new_count`/`updated_count`/`error_count` counters. -/
structure LoopState where
  db : List Opportunity
  nextId : Nat
  newCount : Nat
  updatedCount : Nat
  errorCount : Nat
  deriving DecidableEq, Repr

/-- One iteration of `for idx, opp_dict in enumerate(opportunities)`:
`save_or_update_opportunity` inside `try`/`except` — a raised error is
counted and the loop continues. -/
def processOne (fuzzLib : Bool) (now : Nat) (st : LoopState) (d : OppDict) :
    LoopState :=
  match save_or_update_opportunity fuzzLib st.db d now st.nextId with
  | .ok (_, true, db') =>
      { st with db := db', nextId := st.nextId + 1, newCount := st.newCount + 1 }
  | .ok (_, false, db') =>
      { st with db := db', updatedCount := st.updatedCount + 1 }
  | .error _ =>
      { st with errorCount := st.errorCount + 1 }

/-- The whole per-source save loop. -/
def processOpportunities (fuzzLib : Bool) (now : Nat) (opps : List OppDict)
    (st : LoopState) : LoopState :=
  opps.foldl (processOne fuzzLib now) st

/-- Per-source statistics in the run results. -/
structure SourceStats where
  fetched : Nat
  new : Nat
  updated : Nat
  errors : Nat
  error_message : Option String := none
  deriving DecidableEq, Repr

/-- The accumulated state of one `fetch_all_opportunities` run: stored
records, id supply, the global `fetch_logger`, and the `results` summary
(`sources` keeps insertion order; Python's dict would let a repeated source
name shadow an earlier entry). -/
structure RunAcc where
  db : List Opportunity
  nextId : Nat
  logs : List LogEntry
  sources : List (String × SourceStats)
  totalFetched : Nat
  totalNew : Nat
  totalUpdated : Nat
  totalErrors : Nat
  deriving DecidableEq, Repr

/-- The outcome of `fetcher.fetch()` for one fetcher, as seen by the
orchestrator loop: either the candidate list plus the fetcher's
`error_count`, or an exception escaping `fetch()` (caught per source). -/
abbrev FetchOutcome := Except String (List OppDict × Nat)

/-- The body of `for fetcher in fetchers` in `fetch_all_opportunities`:
on success, run the save loop, log, and accumulate stats; on an exception,
record an all-error entry for that source only. -/
def fetchOneSource (fuzzLib : Bool) (now : Nat) (acc : RunAcc)
    (f : String × FetchOutcome) : RunAcc :=
  match f.2 with
  | .error e =>
      { acc with
        sources := acc.sources ++ [(f.1, ⟨0, 0, 0, 1, some e⟩)],
        totalErrors := acc.totalErrors + 1 }
  | .ok (opps, fetchErrs) =>
      let st := processOpportunities fuzzLib now opps
        ⟨acc.db, acc.nextId, 0, 0, fetchErrs⟩
      { acc with
        db := st.db
        nextId := st.nextId
        logs := FetchLogger.log acc.logs
          ⟨now, f.1, opps.length, st.newCount, st.updatedCount, st.errorCount⟩
        sources := acc.sources ++
          [(f.1, ⟨opps.length, st.newCount, st.updatedCount, st.errorCount, none⟩)]
        totalFetched := acc.totalFetched + opps.length
        totalNew := acc.totalNew + st.newCount
        totalUpdated := acc.totalUpdated + st.updatedCount
        totalErrors := acc.totalErrors + st.errorCount }

/-- `fetch_all_opportunities` (scheduler.py): fold the per-source body over
the enabled fetchers' outcomes.  Note that no step consults
`should_save_opportunity`: candidates go straight from the fetcher to
`save_or_update_opportunity`. -/
def fetch_all_opportunities (fuzzLib : Bool) (now : Nat)
    (fetchers : List (String × FetchOutcome)) (acc : RunAcc) : RunAcc :=
  fetchers.foldl (fetchOneSource fuzzLib now) acc

/-- An empty run accumulator over the given stored records. -/
def initAcc (db : List Opportunity) (nextId : Nat) : RunAcc :=
  ⟨db, nextId, [], [], 0, 0, 0, 0⟩

/-! ## Theorems -/

/-! ### Shared concrete instances -/

/-- The stock configuration: classification enabled, minimum confidence 0.7,
fail-closed on classifier errors, no skip-listed sources. -/
def cfgStrict : Config :=
  { aiFilterEnabled := true
    aiFilterMinConfidence := mkRat 7 10
    aiFilterRejectOnError := true
    sourcesSkipAiFilter := []
    aiFilterTimeout := 120 }

/-- A correctly functioning classifier's response rejecting an
advice-seeking question post. -/
def rejectingOracle : OllamaOutcome :=
  .ok "\x7b\"is_opportunity\": false, \"confidence\": 0.95, \"reasoning\": \"advice-seeking question, not an opportunity\"\x7d"

/-- The question/advice candidate of the specification scenario, with the
fields an RSS fetcher always supplies (company, location, description,
type defaults). -/
def questionCandidate : OppDict :=
  { title := some "How do I get an internship?"
    company := some "Various Companies"
    location := some "Remote"
    type := some "job"
    category := some "General"
    description := some "looking for advice"
    application_url := some "https://reddit.example/post/1"
    source := some "reddit_internships"
    source_id := some "how-do-i-get-an-internship"
    source_url := some "https://reddit.example/post/1"
    auto_fetched := some true }

/-- C1: the claim says every fetched candidate passes the Classification
Gate before being upserted, so this question post (classification enabled,
no skip-list entry, correctly functioning classifier) is rejected and never
persisted.  The code contradicts this: `should_save_opportunity` rejects the
candidate, yet `fetch_all_opportunities` — which never calls the gate —
persists it as a new stored record. -/
theorem claim1_gate_bypassed_in_scheduler :
    should_save_opportunity cfgStrict rejectingOracle questionCandidate = false ∧
    (fetch_all_opportunities false 1
        [("reddit_internships", .ok ([questionCandidate], 0))]
        (initAcc [] 1)).totalNew = 1 ∧
    ((fetch_all_opportunities false 1
        [("reddit_internships", .ok ([questionCandidate], 0))]
        (initAcc [] 1)).db.map (fun o => o.title)) =
      ["How do I get an internship?"] :=
  ⟨by decide, by decide, by decide⟩

/-- C2: with classification enabled, any transport-level failure of the
classifier call (timeout, connection error, other exception) yields an
indeterminate classification — never an accept — with the error captured;
and under the reject-on-error policy, `should_save_opportunity` returns
false for every candidate that is actually classified (its source not on
the skip-list). -/
theorem claim2_transport_failure_fail_closed
    (cfg : Config) (oracle : OllamaOutcome) (d : OppDict)
    (title description source : String)
    (hen : cfg.aiFilterEnabled = true)
    (hfail : oracle.isTransportFailure = true) :
    (pyStrip title ≠ "" →
      (classify_opportunity cfg oracle title description source).is_opportunity = none ∧
      (classify_opportunity cfg oracle title description source).error ≠ none) ∧
    (cfg.aiFilterRejectOnError = true →
      gateSource d ∉ cfg.sourcesSkipAiFilter →
      should_save_opportunity cfg oracle d = false) := by
  constructor
  · intro ht
    cases oracle with
    | ok text => simp [OllamaOutcome.isTransportFailure] at hfail
    | timeout => simp [classify_opportunity, hen, ht]
    | connectionError => simp [classify_opportunity, hen, ht]
    | otherError msg => simp [classify_opportunity, hen, ht]
  · intro hrej hskip
    by_cases htitle : gateTitle d = ""
    · simp [should_save_opportunity, hskip, hen, htitle]
    · have hts : pyStrip (gateTitle d) = gateTitle d :=
        pyStrip_idem (orEmpty d.title)
      have hcl : (classify_opportunity cfg oracle (gateTitle d)
          (gateDescription d) (d.source.getD "unknown")).is_opportunity = none := by
        cases oracle with
        | ok text => simp [OllamaOutcome.isTransportFailure] at hfail
        | timeout => simp [classify_opportunity, hen, hts, htitle]
        | connectionError => simp [classify_opportunity, hen, hts, htitle]
        | otherError msg => simp [classify_opportunity, hen, hts, htitle]
      simp [should_save_opportunity, hskip, hen, htitle, hcl, hrej]

/-- Witness for C2 at a concrete timed-out call. -/
theorem claim2_transport_failure_fail_closed_witness :
    (classify_opportunity cfgStrict .timeout "Software Intern" "apply now" "feedA").is_opportunity = none ∧
    (classify_opportunity cfgStrict .timeout "Software Intern" "apply now" "feedA").error ≠ none ∧
    should_save_opportunity cfgStrict .timeout
      { title := some "Software Intern", description := some "apply now",
        source := some "feedA" } = false := by
  have h := claim2_transport_failure_fail_closed cfgStrict .timeout
    { title := some "Software Intern", description := some "apply now",
      source := some "feedA" }
    "Software Intern" "apply now" "feedA" (by decide) (by decide)
  exact ⟨(h.1 (by decide)).1, (h.1 (by decide)).2, h.2 (by decide) (by decide)⟩

/-- C3: for a candidate that is actually classified (classification enabled,
source not skip-listed, non-empty title), an accept classification is
admitted exactly when its confidence reaches the configured minimum; below
the minimum it is rejected. -/
theorem claim3_confidence_floor
    (cfg : Config) (oracle : OllamaOutcome) (d : OppDict)
    (hen : cfg.aiFilterEnabled = true)
    (hskip : gateSource d ∉ cfg.sourcesSkipAiFilter)
    (htitle : gateTitle d ≠ "")
    (hacc : (classify_opportunity cfg oracle (gateTitle d)
      (gateDescription d) (d.source.getD "unknown")).is_opportunity = some true) :
    should_save_opportunity cfg oracle d = true ↔
      cfg.aiFilterMinConfidence ≤
        (classify_opportunity cfg oracle (gateTitle d)
          (gateDescription d) (d.source.getD "unknown")).confidence := by
  by_cases hlt : (classify_opportunity cfg oracle (gateTitle d)
      (gateDescription d) (d.source.getD "unknown")).confidence <
      cfg.aiFilterMinConfidence
  · simp only [should_save_opportunity, hen]
    simp [hskip, htitle, hacc, hlt, not_le.mpr hlt]
  · simp only [should_save_opportunity, hen]
    simp [hskip, htitle, hacc, hlt, not_lt.mp hlt]

/-- The candidate of the C3 witness. -/
def lowConfCandidate : OppDict :=
  { title := some "Software Intern", description := some "apply",
    source := some "feedA" }

/-- A classifier response accepting with confidence 0.5. -/
def lowConfOracle : OllamaOutcome :=
  .ok "\x7b\"is_opportunity\": true, \"confidence\": 0.5, \"reasoning\": \"maybe\"\x7d"

/-- Witness for C3: an accept at confidence 0.5 against the default minimum
0.7 is rejected. -/
theorem claim3_confidence_floor_witness :
    should_save_opportunity cfgStrict lowConfOracle lowConfCandidate = false := by
  have h := claim3_confidence_floor cfgStrict lowConfOracle lowConfCandidate
    (by decide) (by decide) (by decide) (by decide)
  have h2 : ¬ (cfgStrict.aiFilterMinConfidence ≤
      (classify_opportunity cfgStrict lowConfOracle (gateTitle lowConfCandidate)
        (gateDescription lowConfCandidate)
        (lowConfCandidate.source.getD "unknown")).confidence) := by decide
  cases hval : should_save_opportunity cfgStrict lowConfOracle lowConfCandidate with
  | false => rfl
  | true => exact absurd (h.mp hval) h2

/-- C7: a candidate whose (stripped, lower-cased) source is on the skip-list
is admitted unconditionally, for every possible classifier behaviour — in
particular even when the classifier would reject it, and independently of
any classifier call. -/
theorem claim7_trusted_source_bypass
    (cfg : Config) (d : OppDict)
    (hskip : gateSource d ∈ cfg.sourcesSkipAiFilter) :
    ∀ oracle : OllamaOutcome, should_save_opportunity cfg oracle d = true := by
  intro oracle
  simp [should_save_opportunity, hskip]

/-- Witness for C7: a skip-listed source is admitted although the classifier
rejects it. -/
theorem claim7_trusted_source_bypass_witness :
    should_save_opportunity
      { cfgStrict with sourcesSkipAiFilter := ["jooble"] } rejectingOracle
      { title := some "How do I get an internship?", source := some "jooble" } = true :=
  claim7_trusted_source_bypass
    { cfgStrict with sourcesSkipAiFilter := ["jooble"] }
    { title := some "How do I get an internship?", source := some "jooble" }
    (by decide) rejectingOracle

/-- C10: for a candidate with an empty (or missing) title, the gate's result
is exactly "source on the skip-list, or classification disabled": the two
bypasses are evaluated before the empty-title rejection, which therefore
only applies to non-skip-listed candidates with classification enabled. -/
theorem claim10_empty_title_after_bypasses
    (cfg : Config) (oracle : OllamaOutcome) (d : OppDict)
    (htitle : gateTitle d = "") :
    should_save_opportunity cfg oracle d =
      (decide (gateSource d ∈ cfg.sourcesSkipAiFilter) || !cfg.aiFilterEnabled) := by
  by_cases hskip : gateSource d ∈ cfg.sourcesSkipAiFilter
  · simp [should_save_opportunity, hskip]
  · by_cases hen : cfg.aiFilterEnabled = true
    · simp [should_save_opportunity, hskip, hen, htitle]
    · have hen' : cfg.aiFilterEnabled = false := by
        revert hen
        cases cfg.aiFilterEnabled <;> simp
      simp [should_save_opportunity, hskip, hen']

/-- Witness for C10 at an empty-titled skip-listed candidate. -/
theorem claim10_empty_title_after_bypasses_witness :
    should_save_opportunity
      { cfgStrict with sourcesSkipAiFilter := ["jooble"] } .timeout
      { source := some "jooble" } = true := by
  have h := claim10_empty_title_after_bypasses
    { cfgStrict with sourcesSkipAiFilter := ["jooble"] } .timeout
    { source := some "jooble" } (by decide)
  rw [h]
  decide
/-- A stored record used for the C5 counterexample. -/
def storedAcme : Opportunity :=
  { id := 7, title := "Backend Engineer", company := "Acme", location := "NY",
    type := "job", category := "Technology", description := "d",
    source := some "feedA", source_id := some "123", is_deleted := some false }

/-- A candidate whose `company` key is present but empty, resolving to
`storedAcme` by exact identity. -/
def candPresentEmptyCompany : OppDict :=
  { title := some "Backend Engineer", company := some "",
    source := some "feedA", source_id := some "123" }

/-- C5 counterexample: the claim says a duplicate-hit upsert overwrites a
field only when the candidate's value is non-empty, in particular never
emptying a populated field.  The code uses `dict.get(k, existing)`, which
keeps the old value only when the key is absent: a present-but-empty
`company` overwrites the populated value `"Acme"` with `""`. -/
theorem claim5_counterexample_present_empty_overwrites :
    storedAcme.company = "Acme" ∧
    candPresentEmptyCompany.company = some "" ∧
    ((save_or_update_opportunity false [storedAcme] candPresentEmptyCompany 5 8).toOption.map
      (fun p => (p.1.company, p.2.1))) = some ("", false) :=
  ⟨rfl, rfl, by decide⟩

/-- C5 (amended): on a duplicate hit the upsert overwrites each field with
the candidate's value whenever the key is *present* (even when its value is
empty), keeps the stored value only when the key is absent, refreshes
`last_fetched`, and leaves the persistence identity, the identity key, the
soft-delete flag and the creation time untouched; on a miss it creates a
new record whose `auto_fetched` is the candidate's value, defaulting to
true. -/
theorem claim5_upsert_field_semantics
    (fuzzLib : Bool) (db : List Opportunity) (d : OppDict) (now newId : Nat) :
    (∀ r, deduplicate_opportunity fuzzLib db d = (some r, true) →
      ∃ upd, save_or_update_opportunity fuzzLib db d now newId =
          .ok (upd, false, commitUpdate db r.id upd) ∧
        upd.title = (match d.title with | some s => s | none => r.title) ∧
        upd.company = (match d.company with | some s => s | none => r.company) ∧
        upd.location = (match d.location with | some s => s | none => r.location) ∧
        upd.type = (match d.type with | some s => s | none => r.type) ∧
        upd.category = (match d.category with | some s => s | none => r.category) ∧
        upd.description = (match d.description with | some s => s | none => r.description) ∧
        upd.requirements = (match d.requirements with | some s => some s | none => r.requirements) ∧
        upd.salary = (match d.salary with | some s => some s | none => r.salary) ∧
        upd.application_url = (match d.application_url with | some s => some s | none => r.application_url) ∧
        upd.source_url = (match d.source_url with | some s => some s | none => r.source_url) ∧
        upd.last_fetched = some now ∧
        upd.id = r.id ∧
        upd.created_at = r.created_at ∧
        upd.source = r.source ∧
        upd.source_id = r.source_id ∧
        upd.is_deleted = r.is_deleted) ∧
    (deduplicate_opportunity fuzzLib db d = (none, false) →
      pyStrip (d.title.getD "") ≠ "" →
      pyStrip (d.company.getD "") ≠ "" →
      pyStrip (d.location.getD "") ≠ "" →
      save_or_update_opportunity fuzzLib db d now newId =
          .ok (createRecord d now newId, true, db ++ [createRecord d now newId]) ∧
        (createRecord d now newId).auto_fetched = d.auto_fetched.getD true ∧
        (createRecord d now newId).id = newId ∧
        (createRecord d now newId).created_at = now) := by
  constructor
  · intro r hdup
    refine ⟨applyUpdate d r now, ?_, ?_, ?_, ?_, ?_, ?_, ?_, ?_, ?_, ?_, ?_,
      rfl, rfl, rfl, rfl, rfl, rfl⟩
    · simp [save_or_update_opportunity, hdup]
    · simp only [applyUpdate]; cases d.title <;> rfl
    · simp only [applyUpdate]; cases d.company <;> rfl
    · simp only [applyUpdate]; cases d.location <;> rfl
    · simp only [applyUpdate]; cases d.type <;> rfl
    · simp only [applyUpdate]; cases d.category <;> rfl
    · simp only [applyUpdate]; cases d.description <;> rfl
    · simp only [applyUpdate, updOpt]
    · simp only [applyUpdate, updOpt]
    · simp only [applyUpdate, updOpt]
    · simp only [applyUpdate, updOpt]
  · intro hmiss htitle hcompany hlocation
    have h1 : (pyStrip (d.title.getD "") = "") = False := by
      simp [htitle]
    have h2 : (pyStrip (d.company.getD "") = "") = False := by
      simp [hcompany]
    have h3 : (pyStrip (d.location.getD "") = "") = False := by
      simp [hlocation]
    refine ⟨?_, rfl, rfl, rfl⟩
    simp [save_or_update_opportunity, hmiss, h1, h2, h3]

/-- The fully populated candidate of the specification's upsert scenario. -/
def candHiringFull : OppDict :=
  { title := some "[Hiring] Backend Engineer", company := some "Acme",
    location := some "Remote", type := some "job", description := some "apply",
    source := some "feedA", source_id := some "123", auto_fetched := some true }

/-- Witness for C5: a concrete duplicate hit (the present-but-empty company
overwrites) and a concrete miss (a new record is created). -/
theorem claim5_upsert_field_semantics_witness :
    ((save_or_update_opportunity false [storedAcme] candPresentEmptyCompany 5 8).toOption.map
      (fun p => (p.1.company, p.2.1))) = some ("", false) ∧
    save_or_update_opportunity false [] candHiringFull 5 8 =
      .ok (createRecord candHiringFull 5 8, true, [createRecord candHiringFull 5 8]) ∧
    (createRecord candHiringFull 5 8).auto_fetched = true := by
  refine ⟨?_, ?_, ?_⟩
  · obtain ⟨upd, hsave, ht, hcomp, hrest⟩ :=
      (claim5_upsert_field_semantics false [storedAcme] candPresentEmptyCompany 5 8).1
        storedAcme (by decide)
    have hc : upd.company = "" := by rw [hcomp]; rfl
    rw [hsave]
    simp [Except.toOption, hc]
  · exact ((claim5_upsert_field_semantics false [] candHiringFull 5 8).2
      (by decide) (by decide) (by decide) (by decide)).1
  · have h := ((claim5_upsert_field_semantics false [] candHiringFull 5 8).2
      (by decide) (by decide) (by decide) (by decide)).2.1
    rw [h]; rfl

/-! ### C9: the fetch-run log -/

/-- Appending `n` runs' entries to the logger, one per run. -/
def logTimes (n : Nat) : List LogEntry :=
  (List.range n).foldl
    (fun logs k => FetchLogger.log logs ⟨k, "s", 1, 0, 0, 0⟩) []

/-- C9 counterexample: the claim says the run-log collection is a bounded
ring buffer that never grows beyond a fixed size.  The only size configured
anywhere is the default retrieval limit 50, and after 51 `log` calls the
stored collection holds 51 entries — `log` is a plain unbounded append. -/
theorem claim9_counterexample_log_unbounded :
    (logTimes 51).length = 51 ∧ 50 < (logTimes 51).length ∧
    (get_fetch_logs (logTimes 51) 50).length = 50 := by
  refine ⟨by decide, by decide, by decide⟩

/-- C9 (amended): the stored log list grows by one entry per logged source
with no bound; `get_fetch_logs` returns the `limit` most-recent entries
(at most `limit` of them) for any positive `limit`, while `limit = 0`
returns the entire log (Python's `logs[-0:]`). -/
theorem claim9_log_append_and_limit
    (logs : List LogEntry) (e : LogEntry) (limit : Nat) :
    (FetchLogger.log logs e).length = logs.length + 1 ∧
    (1 ≤ limit →
      get_fetch_logs logs limit = logs.drop (logs.length - limit) ∧
      (get_fetch_logs logs limit).length = min logs.length limit) ∧
    get_fetch_logs logs 0 = logs := by
  refine ⟨by simp [FetchLogger.log], ?_, ?_⟩
  · intro hpos
    have hlim : limit ≠ 0 := by omega
    constructor
    · by_cases h : logs.length > limit
      · simp [get_fetch_logs, FetchLogger.get_logs, h, hlim]
      · have hdrop : logs.length - limit = 0 := by omega
        simp [get_fetch_logs, FetchLogger.get_logs, h, hdrop]
    · by_cases h : logs.length > limit
      · simp [get_fetch_logs, FetchLogger.get_logs, h, hlim]
        omega
      · have hdrop : logs.length - limit = 0 := by omega
        simp [get_fetch_logs, FetchLogger.get_logs, h, hdrop]
        omega
  · by_cases h : logs.length > 0
    · simp [get_fetch_logs, FetchLogger.get_logs, h]
    · simp [get_fetch_logs, FetchLogger.get_logs, h]

/-- Witness for C9 at a concrete log and limit. -/
theorem claim9_log_append_and_limit_witness :
    (FetchLogger.log (logTimes 3) ⟨9, "t", 1, 0, 0, 0⟩).length = 4 ∧
    get_fetch_logs (logTimes 3) 2 = (logTimes 3).drop 1 := by
  have h := claim9_log_append_and_limit (logTimes 3) ⟨9, "t", 1, 0, 0, 0⟩ 2
  refine ⟨?_, ?_⟩
  · rw [h.1]; rfl
  · have := (h.2.1 (by omega)).1
    simpa using this

/-! ### C8: fuzzy duplicate resolution -/

/-- A stored internship used for the C8 counterexample. -/
def storedSEI : Opportunity :=
  { id := 1, title := "Software Engineering Intern", company := "Acme",
    location := "NY", type := "internship", category := "Technology",
    description := "d", is_deleted := some false }

/-- The near-duplicate candidate of the specification's fuzziness scenario
(same company and type, no source identity). -/
def candSEI : OppDict :=
  { title := some "Software Engineer Intern", company := some "Acme",
    type := some "internship" }

/-- The same scenario with the two titles swapped. -/
def storedSEIswap : Opportunity :=
  { storedSEI with title := "Software Engineer Intern" }

/-- The swapped candidate. -/
def candSEIswap : OppDict :=
  { candSEI with title := some "Software Engineering Intern" }

set_option maxRecDepth 40000 in
/-- C8 counterexample: the claim says "Software Engineering Intern" and
"Software Engineer Intern" (same company and type) resolve as duplicates at
threshold 0.85.  They do not, in either submission order and with or
without the similarity library: the fuzzy lookup's SQL pre-filter
(`title ilike '%candidate%'`) requires the candidate's title to be contained
in the stored title, which fails for this pair — even though the
similarity ratio alone (last conjunct) is above the threshold. -/
theorem claim8_counterexample_similar_titles_not_duplicates :
    deduplicate_opportunity true [storedSEI] candSEI = (none, false) ∧
    deduplicate_opportunity false [storedSEI] candSEI = (none, false) ∧
    deduplicate_opportunity true [storedSEIswap] candSEIswap = (none, false) ∧
    deduplicate_opportunity false [storedSEIswap] candSEIswap = (none, false) ∧
    titles_similar true "Software Engineering Intern" "Software Engineer Intern"
      (mkRat 85 100) = true := by
  refine ⟨by decide, by decide, by decide, by decide, by decide⟩

/-- Modelled from the spec: "if no similarity library is available, fall
back to: exact-equal, substring-containment, or token-overlap ratio ≥
threshold" (on lower-cased, stripped titles). -/
def specFallbackSimilar (t1 t2 : String) (th : ℚ) : Bool :=
  let a := pyStrip (pyLower t1)
  let b := pyStrip (pyLower t2)
  let words1 := (pyWords a).dedup
  let words2 := (pyWords b).dedup
  a == b || strContains b a || strContains a b ||
    (decide (words1.length > 0) && decide (words2.length > 0) &&
      decide (mkRat (words1.filter (fun w => words2.contains w)).length
        (max words1.length words2.length) ≥ th))

/-- On a one-record store without a source identity, a candidate whose
(stripped) title is not contained in the stored title never resolves as a
duplicate: the fuzzy pre-filter fails before any similarity check. -/
theorem dedup_singleton_no_title_containment
    (fuzzLib : Bool) (r : Opportunity) (d : OppDict) (tc : String)
    (hsrc : d.source = none) (hsid : d.source_id = none)
    (ht : pyStrip (d.title.getD "") = tc)
    (hcon : strContains (pyLower r.title) (pyLower tc) = false)
    (hne : tc ≠ "") :
    deduplicate_opportunity fuzzLib [r] d = (none, false) := by
  simp only [deduplicate_opportunity, hsrc, hsid, ht]
  by_cases hcomp : pyStrip (d.company.getD "") = ""
  · simp [hcomp]
  · have hpred : fuzzyMatchPred tc (pyStrip (d.company.getD ""))
        (d.type.getD "") r = false := by
      simp [fuzzyMatchPred, hcon]
    simp [hne, hcomp, List.find?, hpred]

set_option maxRecDepth 40000 in
/-- C8 (amended): with the same company and type, "Software Engineering
Intern" and "Software Engineer Intern" do **not** resolve as duplicates in
either order — the fuzzy lookup first requires the candidate's title to be
contained (case-insensitively) in the stored title, which fails for this
pair — although the similarity-library ratio alone rates them at or above
0.85 (while the no-library fallback rates them below); "Software Engineer"
and "Marketing Intern" do not resolve as duplicates and are dissimilar
under both similarity checks; and when no similarity library is available
the similarity check is exactly: exact equality, substring containment, or
token-overlap ratio at or above the threshold. -/
theorem claim8_fuzzy_matching_semantics :
    (∀ (fuzzLib : Bool) (r : Opportunity) (d : OppDict),
      d.source = none → d.source_id = none →
      pyStrip (d.title.getD "") = "Software Engineer Intern" →
      pyLower r.title = "software engineering intern" →
      deduplicate_opportunity fuzzLib [r] d = (none, false)) ∧
    (∀ (fuzzLib : Bool) (r : Opportunity) (d : OppDict),
      d.source = none → d.source_id = none →
      pyStrip (d.title.getD "") = "Software Engineering Intern" →
      pyLower r.title = "software engineer intern" →
      deduplicate_opportunity fuzzLib [r] d = (none, false)) ∧
    (∀ (fuzzLib : Bool) (r : Opportunity) (d : OppDict),
      d.source = none → d.source_id = none →
      pyStrip (d.title.getD "") = "Marketing Intern" →
      pyLower r.title = "software engineer" →
      deduplicate_opportunity fuzzLib [r] d = (none, false)) ∧
    titles_similar true "Software Engineering Intern" "Software Engineer Intern"
      (mkRat 85 100) = true ∧
    titles_similar false "Software Engineering Intern" "Software Engineer Intern"
      (mkRat 85 100) = false ∧
    titles_similar true "Software Engineer" "Marketing Intern" (mkRat 85 100) = false ∧
    titles_similar false "Software Engineer" "Marketing Intern" (mkRat 85 100) = false ∧
    (∀ (t1 t2 : String) (th : ℚ),
      titles_similar false t1 t2 th = specFallbackSimilar t1 t2 th) := by
  refine ⟨?_, ?_, ?_, by decide, by decide, by decide, by decide, ?_⟩
  · intro fuzzLib r d hsrc hsid ht hl
    exact dedup_singleton_no_title_containment fuzzLib r d _ hsrc hsid ht
      (by rw [hl]; decide) (by decide)
  · intro fuzzLib r d hsrc hsid ht hl
    exact dedup_singleton_no_title_containment fuzzLib r d _ hsrc hsid ht
      (by rw [hl]; decide) (by decide)
  · intro fuzzLib r d hsrc hsid ht hl
    exact dedup_singleton_no_title_containment fuzzLib r d _ hsrc hsid ht
      (by rw [hl]; decide) (by decide)
  · intro t1 t2 th
    simp only [titles_similar, specFallbackSimilar, if_false, Bool.if_true_left]
    by_cases h1 : pyStrip (pyLower t1) = pyStrip (pyLower t2)
    · simp [h1]
    · by_cases h2 : strContains (pyStrip (pyLower t2)) (pyStrip (pyLower t1)) ||
          strContains (pyStrip (pyLower t1)) (pyStrip (pyLower t2)) = true
      · simp only [h1, if_neg, ite_false]
        simp [h1, h2]
        revert h2
        cases strContains (pyStrip (pyLower t2)) (pyStrip (pyLower t1)) <;>
          cases strContains (pyStrip (pyLower t1)) (pyStrip (pyLower t2)) <;> simp
      · have h2' : strContains (pyStrip (pyLower t2)) (pyStrip (pyLower t1)) = false ∧
            strContains (pyStrip (pyLower t1)) (pyStrip (pyLower t2)) = false := by
          revert h2
          cases strContains (pyStrip (pyLower t2)) (pyStrip (pyLower t1)) <;>
            cases strContains (pyStrip (pyLower t1)) (pyStrip (pyLower t2)) <;> simp
        by_cases h3 : ((pyWords (pyStrip (pyLower t1))).dedup.length > 0 ∧
            (pyWords (pyStrip (pyLower t2))).dedup.length > 0)
        · simp [h1, h2'.1, h2'.2, h3]
        · simp [h1, h2'.1, h2'.2, h3]

/-- Witness for C8 at the concrete scenario records. -/
theorem claim8_fuzzy_matching_semantics_witness :
    deduplicate_opportunity true [storedSEI] candSEI = (none, false) ∧
    titles_similar false "Software Engineering Intern" "Software Engineer Intern"
      (mkRat 85 100) =
      specFallbackSimilar "Software Engineering Intern" "Software Engineer Intern"
        (mkRat 85 100) := by
  refine ⟨?_, ?_⟩
  · exact claim8_fuzzy_matching_semantics.1 true storedSEI candSEI
      (by decide) (by decide) (by decide) (by decide)
  · exact claim8_fuzzy_matching_semantics.2.2.2.2.2.2.2
      "Software Engineering Intern" "Software Engineer Intern" (mkRat 85 100)

/-! ### C6: error containment -/

/-- A well-formed candidate parsed from a feed entry. -/
def sampleEntryOpp : OppDict :=
  { title := some "[Hiring] Backend Engineer", company := some "Acme",
    location := some "Remote", type := some "job", category := some "Technology",
    description := some "apply now", application_url := some "https://a.example",
    source_id := some "42", source_url := some "https://a.example" }

/-- C6 counterexample: the claim says all network and per-item parse errors
surface as an *incremented error counter* plus an empty or partial list.
A per-item parse exception is dropped without touching the counter (partial
list, zero increment), and a 403 response yields an empty list with zero
increment. -/
theorem claim6_counterexample_parse_error_uncounted :
    RSSFetcher.fetch "feedA"
      (.response 200 [.parsed sampleEntryOpp, .raisesInParse "boom"]) 0 =
      ([rssNormalize "feedA" sampleEntryOpp], 0) ∧
    RSSFetcher.fetch "feedA" (.response 403 [.parsed sampleEntryOpp]) 0 = ([], 0) :=
  ⟨rfl, rfl⟩

/-- The entry loop of `RSSFetcher.fetch` keeps exactly the successfully
parsed entries, in order. -/
theorem rss_entry_fold_eq (name : String) (entries : List EntryOutcome) :
    ∀ acc : List OppDict,
      entries.foldl (fun acc e =>
        match e with
        | .parsed o => acc ++ [rssNormalize name o]
        | .skipped => acc
        | .raisesInParse _ => acc) acc
      = acc ++ entries.filterMap (fun e =>
          match e with
          | .parsed o => some (rssNormalize name o)
          | _ => none) := by
  induction entries with
  | nil => intro acc; simp
  | cons e t ih =>
      intro acc
      cases e with
      | parsed o => simp [List.foldl_cons, ih]
      | skipped => simp [List.foldl_cons, ih]
      | raisesInParse msg => simp [List.foldl_cons, ih]

/-- Folding the per-source orchestrator step over the same fetcher outcomes
from two accumulators that agree on everything except the `sources` summary
and the error total: the shared state evolves identically, the same source
entries are appended, and the error totals keep their difference. -/
theorem foldl_fetch_congr (fuzzLib : Bool) (now : Nat)
    (B : List (String × FetchOutcome)) :
    ∀ (db : List Opportunity) (nid : Nat) (logs : List LogEntry)
      (s1 s2 : List (String × SourceStats)) (tf tn tu te1 te2 : Nat),
      (List.foldl (fetchOneSource fuzzLib now) ⟨db, nid, logs, s1, tf, tn, tu, te1⟩ B).db =
        (List.foldl (fetchOneSource fuzzLib now) ⟨db, nid, logs, s2, tf, tn, tu, te2⟩ B).db ∧
      (List.foldl (fetchOneSource fuzzLib now) ⟨db, nid, logs, s1, tf, tn, tu, te1⟩ B).nextId =
        (List.foldl (fetchOneSource fuzzLib now) ⟨db, nid, logs, s2, tf, tn, tu, te2⟩ B).nextId ∧
      (List.foldl (fetchOneSource fuzzLib now) ⟨db, nid, logs, s1, tf, tn, tu, te1⟩ B).logs =
        (List.foldl (fetchOneSource fuzzLib now) ⟨db, nid, logs, s2, tf, tn, tu, te2⟩ B).logs ∧
      (List.foldl (fetchOneSource fuzzLib now) ⟨db, nid, logs, s1, tf, tn, tu, te1⟩ B).totalFetched =
        (List.foldl (fetchOneSource fuzzLib now) ⟨db, nid, logs, s2, tf, tn, tu, te2⟩ B).totalFetched ∧
      (List.foldl (fetchOneSource fuzzLib now) ⟨db, nid, logs, s1, tf, tn, tu, te1⟩ B).totalNew =
        (List.foldl (fetchOneSource fuzzLib now) ⟨db, nid, logs, s2, tf, tn, tu, te2⟩ B).totalNew ∧
      (List.foldl (fetchOneSource fuzzLib now) ⟨db, nid, logs, s1, tf, tn, tu, te1⟩ B).totalUpdated =
        (List.foldl (fetchOneSource fuzzLib now) ⟨db, nid, logs, s2, tf, tn, tu, te2⟩ B).totalUpdated ∧
      (List.foldl (fetchOneSource fuzzLib now) ⟨db, nid, logs, s1, tf, tn, tu, te1⟩ B).totalErrors + te2 =
        (List.foldl (fetchOneSource fuzzLib now) ⟨db, nid, logs, s2, tf, tn, tu, te2⟩ B).totalErrors + te1 ∧
      ∃ app,
        (List.foldl (fetchOneSource fuzzLib now) ⟨db, nid, logs, s1, tf, tn, tu, te1⟩ B).sources =
          s1 ++ app ∧
        (List.foldl (fetchOneSource fuzzLib now) ⟨db, nid, logs, s2, tf, tn, tu, te2⟩ B).sources =
          s2 ++ app := by
  induction B with
  | nil =>
      intro db nid logs s1 s2 tf tn tu te1 te2
      exact ⟨rfl, rfl, rfl, rfl, rfl, rfl,
        by show te1 + te2 = te2 + te1; omega,
        [], by show s1 = s1 ++ []; simp, by show s2 = s2 ++ []; simp⟩
  | cons f t ih =>
      intro db nid logs s1 s2 tf tn tu te1 te2
      simp only [List.foldl_cons]
      cases hf : f.2 with
      | error e =>
          have step1 : fetchOneSource fuzzLib now ⟨db, nid, logs, s1, tf, tn, tu, te1⟩ f =
              ⟨db, nid, logs, s1 ++ [(f.1, ⟨0, 0, 0, 1, some e⟩)], tf, tn, tu, te1 + 1⟩ := by
            simp [fetchOneSource, hf]
          have step2 : fetchOneSource fuzzLib now ⟨db, nid, logs, s2, tf, tn, tu, te2⟩ f =
              ⟨db, nid, logs, s2 ++ [(f.1, ⟨0, 0, 0, 1, some e⟩)], tf, tn, tu, te2 + 1⟩ := by
            simp [fetchOneSource, hf]
          rw [step1, step2]
          obtain ⟨hd, hn, hl, hfe, hnw, hup, herr, app, happ1, happ2⟩ :=
            ih db nid logs (s1 ++ [(f.1, ⟨0, 0, 0, 1, some e⟩)])
              (s2 ++ [(f.1, ⟨0, 0, 0, 1, some e⟩)]) tf tn tu (te1 + 1) (te2 + 1)
          refine ⟨hd, hn, hl, hfe, hnw, hup, by omega,
            (f.1, ⟨0, 0, 0, 1, some e⟩) :: app, ?_, ?_⟩
          · rw [happ1]; simp
          · rw [happ2]; simp
      | ok payload =>
          have step1 : fetchOneSource fuzzLib now ⟨db, nid, logs, s1, tf, tn, tu, te1⟩ f =
              ⟨(processOpportunities fuzzLib now payload.1 ⟨db, nid, 0, 0, payload.2⟩).db,
               (processOpportunities fuzzLib now payload.1 ⟨db, nid, 0, 0, payload.2⟩).nextId,
               FetchLogger.log logs ⟨now, f.1, payload.1.length,
                 (processOpportunities fuzzLib now payload.1 ⟨db, nid, 0, 0, payload.2⟩).newCount,
                 (processOpportunities fuzzLib now payload.1 ⟨db, nid, 0, 0, payload.2⟩).updatedCount,
                 (processOpportunities fuzzLib now payload.1 ⟨db, nid, 0, 0, payload.2⟩).errorCount⟩,
               s1 ++ [(f.1, ⟨payload.1.length,
                 (processOpportunities fuzzLib now payload.1 ⟨db, nid, 0, 0, payload.2⟩).newCount,
                 (processOpportunities fuzzLib now payload.1 ⟨db, nid, 0, 0, payload.2⟩).updatedCount,
                 (processOpportunities fuzzLib now payload.1 ⟨db, nid, 0, 0, payload.2⟩).errorCount,
                 none⟩)],
               tf + payload.1.length,
               tn + (processOpportunities fuzzLib now payload.1 ⟨db, nid, 0, 0, payload.2⟩).newCount,
               tu + (processOpportunities fuzzLib now payload.1 ⟨db, nid, 0, 0, payload.2⟩).updatedCount,
               te1 + (processOpportunities fuzzLib now payload.1 ⟨db, nid, 0, 0, payload.2⟩).errorCount⟩ := by
            simp [fetchOneSource, hf]
          have step2 : fetchOneSource fuzzLib now ⟨db, nid, logs, s2, tf, tn, tu, te2⟩ f =
              ⟨(processOpportunities fuzzLib now payload.1 ⟨db, nid, 0, 0, payload.2⟩).db,
               (processOpportunities fuzzLib now payload.1 ⟨db, nid, 0, 0, payload.2⟩).nextId,
               FetchLogger.log logs ⟨now, f.1, payload.1.length,
                 (processOpportunities fuzzLib now payload.1 ⟨db, nid, 0, 0, payload.2⟩).newCount,
                 (processOpportunities fuzzLib now payload.1 ⟨db, nid, 0, 0, payload.2⟩).updatedCount,
                 (processOpportunities fuzzLib now payload.1 ⟨db, nid, 0, 0, payload.2⟩).errorCount⟩,
               s2 ++ [(f.1, ⟨payload.1.length,
                 (processOpportunities fuzzLib now payload.1 ⟨db, nid, 0, 0, payload.2⟩).newCount,
                 (processOpportunities fuzzLib now payload.1 ⟨db, nid, 0, 0, payload.2⟩).updatedCount,
                 (processOpportunities fuzzLib now payload.1 ⟨db, nid, 0, 0, payload.2⟩).errorCount,
                 none⟩)],
               tf + payload.1.length,
               tn + (processOpportunities fuzzLib now payload.1 ⟨db, nid, 0, 0, payload.2⟩).newCount,
               tu + (processOpportunities fuzzLib now payload.1 ⟨db, nid, 0, 0, payload.2⟩).updatedCount,
               te2 + (processOpportunities fuzzLib now payload.1 ⟨db, nid, 0, 0, payload.2⟩).errorCount⟩ := by
            simp [fetchOneSource, hf]
          rw [step1, step2]
          obtain ⟨hd, hn, hl, hfe, hnw, hup, herr, app, happ1, happ2⟩ :=
            ih (processOpportunities fuzzLib now payload.1 ⟨db, nid, 0, 0, payload.2⟩).db
              (processOpportunities fuzzLib now payload.1 ⟨db, nid, 0, 0, payload.2⟩).nextId
              (FetchLogger.log logs ⟨now, f.1, payload.1.length,
                (processOpportunities fuzzLib now payload.1 ⟨db, nid, 0, 0, payload.2⟩).newCount,
                (processOpportunities fuzzLib now payload.1 ⟨db, nid, 0, 0, payload.2⟩).updatedCount,
                (processOpportunities fuzzLib now payload.1 ⟨db, nid, 0, 0, payload.2⟩).errorCount⟩)
              (s1 ++ [(f.1, ⟨payload.1.length,
                (processOpportunities fuzzLib now payload.1 ⟨db, nid, 0, 0, payload.2⟩).newCount,
                (processOpportunities fuzzLib now payload.1 ⟨db, nid, 0, 0, payload.2⟩).updatedCount,
                (processOpportunities fuzzLib now payload.1 ⟨db, nid, 0, 0, payload.2⟩).errorCount,
                none⟩)])
              (s2 ++ [(f.1, ⟨payload.1.length,
                (processOpportunities fuzzLib now payload.1 ⟨db, nid, 0, 0, payload.2⟩).newCount,
                (processOpportunities fuzzLib now payload.1 ⟨db, nid, 0, 0, payload.2⟩).updatedCount,
                (processOpportunities fuzzLib now payload.1 ⟨db, nid, 0, 0, payload.2⟩).errorCount,
                none⟩)])
              (tf + payload.1.length)
              (tn + (processOpportunities fuzzLib now payload.1 ⟨db, nid, 0, 0, payload.2⟩).newCount)
              (tu + (processOpportunities fuzzLib now payload.1 ⟨db, nid, 0, 0, payload.2⟩).updatedCount)
              (te1 + (processOpportunities fuzzLib now payload.1 ⟨db, nid, 0, 0, payload.2⟩).errorCount)
              (te2 + (processOpportunities fuzzLib now payload.1 ⟨db, nid, 0, 0, payload.2⟩).errorCount)
          refine ⟨hd, hn, hl, hfe, hnw, hup, by omega,
            (f.1, ⟨payload.1.length,
              (processOpportunities fuzzLib now payload.1 ⟨db, nid, 0, 0, payload.2⟩).newCount,
              (processOpportunities fuzzLib now payload.1 ⟨db, nid, 0, 0, payload.2⟩).updatedCount,
              (processOpportunities fuzzLib now payload.1 ⟨db, nid, 0, 0, payload.2⟩).errorCount,
              none⟩) :: app, ?_, ?_⟩
          · rw [happ1]; simp
          · rw [happ2]; simp

/-- C6 (amended): a transport-level exception in `RSSFetcher.fetch` is
caught, increments the fetcher's error counter, and yields an empty list;
a 403 response yields an empty list without an increment; a successful
response yields exactly the parseable entries (per-item parse errors are
dropped silently — a partial list, no increment).  In the orchestrator, one
fetcher whose `fetch()` raises affects only its own per-source stats (one
error, with the message) and the run's error total: the stored records,
id supply, log, and every other source's statistics are unchanged, and
`fetch_all_opportunities` still returns its stats accumulator. -/
theorem claim6_fetcher_and_run_error_containment :
    (∀ (name msg : String) (ec : Nat),
      RSSFetcher.fetch name (.raisesRequest msg) ec = ([], ec + 1) ∧
      RSSFetcher.fetch name (.raisesOther msg) ec = ([], ec + 1)) ∧
    (∀ (name : String) (entries : List EntryOutcome) (ec : Nat),
      RSSFetcher.fetch name (.response 403 entries) ec = ([], ec)) ∧
    (∀ (name : String) (status : Nat) (entries : List EntryOutcome) (ec : Nat),
      status ≠ 403 → status < 400 →
      RSSFetcher.fetch name (.response status entries) ec =
        (entries.filterMap (fun e =>
          match e with
          | .parsed o => some (rssNormalize name o)
          | _ => none), ec)) ∧
    (∀ (fuzzLib : Bool) (now : Nat) (A B : List (String × FetchOutcome))
        (n e : String) (acc : RunAcc),
      (fetch_all_opportunities fuzzLib now (A ++ (n, Except.error e) :: B) acc).db =
        (fetch_all_opportunities fuzzLib now (A ++ B) acc).db ∧
      (fetch_all_opportunities fuzzLib now (A ++ (n, Except.error e) :: B) acc).nextId =
        (fetch_all_opportunities fuzzLib now (A ++ B) acc).nextId ∧
      (fetch_all_opportunities fuzzLib now (A ++ (n, Except.error e) :: B) acc).logs =
        (fetch_all_opportunities fuzzLib now (A ++ B) acc).logs ∧
      (fetch_all_opportunities fuzzLib now (A ++ (n, Except.error e) :: B) acc).totalFetched =
        (fetch_all_opportunities fuzzLib now (A ++ B) acc).totalFetched ∧
      (fetch_all_opportunities fuzzLib now (A ++ (n, Except.error e) :: B) acc).totalNew =
        (fetch_all_opportunities fuzzLib now (A ++ B) acc).totalNew ∧
      (fetch_all_opportunities fuzzLib now (A ++ (n, Except.error e) :: B) acc).totalUpdated =
        (fetch_all_opportunities fuzzLib now (A ++ B) acc).totalUpdated ∧
      (fetch_all_opportunities fuzzLib now (A ++ (n, Except.error e) :: B) acc).totalErrors =
        (fetch_all_opportunities fuzzLib now (A ++ B) acc).totalErrors + 1 ∧
      ∃ pre post,
        (fetch_all_opportunities fuzzLib now (A ++ (n, Except.error e) :: B) acc).sources =
          pre ++ [(n, ⟨0, 0, 0, 1, some e⟩)] ++ post ∧
        (fetch_all_opportunities fuzzLib now (A ++ B) acc).sources = pre ++ post) := by
  refine ⟨?_, ?_, ?_, ?_⟩
  · intro name msg ec; exact ⟨rfl, rfl⟩
  · intro name entries ec; rfl
  · intro name status entries ec h403 hlt
    have h400 : ¬ (400 ≤ status) := by omega
    simp [RSSFetcher.fetch, h403, h400, rss_entry_fold_eq]
  · intro fuzzLib now A B n e acc
    have hsplit1 : fetch_all_opportunities fuzzLib now (A ++ (n, Except.error e) :: B) acc =
        List.foldl (fetchOneSource fuzzLib now)
          (fetchOneSource fuzzLib now
            (List.foldl (fetchOneSource fuzzLib now) acc A) (n, Except.error e)) B := by
      simp [fetch_all_opportunities, List.foldl_append]
    have hsplit2 : fetch_all_opportunities fuzzLib now (A ++ B) acc =
        List.foldl (fetchOneSource fuzzLib now)
          (List.foldl (fetchOneSource fuzzLib now) acc A) B := by
      simp [fetch_all_opportunities, List.foldl_append]
    rw [hsplit1, hsplit2]
    generalize List.foldl (fetchOneSource fuzzLib now) acc A = a2
    obtain ⟨db0, nid0, logs0, s0, tf0, tn0, tu0, te0⟩ := a2
    have hbad : fetchOneSource fuzzLib now ⟨db0, nid0, logs0, s0, tf0, tn0, tu0, te0⟩
        (n, Except.error e) =
        ⟨db0, nid0, logs0, s0 ++ [(n, ⟨0, 0, 0, 1, some e⟩)], tf0, tn0, tu0, te0 + 1⟩ := by
      simp [fetchOneSource]
    rw [hbad]
    obtain ⟨hd, hn, hl, hfe, hnw, hup, herr, app, happ1, happ2⟩ :=
      foldl_fetch_congr fuzzLib now B db0 nid0 logs0
        (s0 ++ [(n, ⟨0, 0, 0, 1, some e⟩)]) s0 tf0 tn0 tu0 (te0 + 1) te0
    refine ⟨hd, hn, hl, hfe, hnw, hup, by omega, s0, app, ?_, happ2⟩
    rw [happ1]

/-- Witness for C6: a concrete mixed feed and a concrete run with one
failing fetcher at the head. -/
theorem claim6_fetcher_and_run_error_containment_witness :
    RSSFetcher.fetch "feedA" (.response 200 [.parsed sampleEntryOpp, .skipped]) 0 =
      ([rssNormalize "feedA" sampleEntryOpp], 0) ∧
    (fetch_all_opportunities false 1
        [("bad", Except.error "boom"), ("good", Except.ok ([], 0))]
        (initAcc [] 1)).totalErrors =
      (fetch_all_opportunities false 1 [("good", Except.ok ([], 0))]
        (initAcc [] 1)).totalErrors + 1 ∧
    (fetch_all_opportunities false 1
        [("bad", Except.error "boom"), ("good", Except.ok ([], 0))]
        (initAcc [] 1)).db =
      (fetch_all_opportunities false 1 [("good", Except.ok ([], 0))]
        (initAcc [] 1)).db := by
  have h3 := claim6_fetcher_and_run_error_containment.2.2.1 "feedA" 200
    [.parsed sampleEntryOpp, .skipped] 0 (by decide) (by decide)
  have h4 := claim6_fetcher_and_run_error_containment.2.2.2 false 1 []
    [("good", Except.ok ([], 0))] "bad" "boom" (initAcc [] 1)
  exact ⟨by rw [h3]; rfl, h4.2.2.2.2.2.2.1, h4.1⟩

/-! ### C4: dedup identity and run idempotence -/

/-- A pre-existing stored record whose title is fuzzy-similar to the
candidates below but whose identity key never recurs upstream. -/
def storedDataIntern : Opportunity :=
  { id := 1, title := "Data Intern Special", company := "Acme",
    location := "Remote", type := "job", category := "Technology",
    description := "desc", source := some "old", source_id := some "9",
    is_deleted := some false }

/-- First upstream candidate: its title is contained in the stored title. -/
def candSpecia : OppDict :=
  { title := some "Data Intern Specia", company := some "Acme",
    location := some "Remote", type := some "job",
    category := some "Technology", description := some "things",
    source := some "s", source_id := some "1", auto_fetched := some true }

/-- Second upstream candidate, a substring of the first one's title. -/
def candSpec : OppDict :=
  { candSpecia with title := some "Data Intern Spec", source_id := some "3" }

/-- C4 counterexample: re-running the orchestrator on unchanged upstream
data is *not* idempotent.  On the first run both candidates fuzzy-update
the pre-existing record, each overwriting (and shortening) its title; on
the second run the first candidate's title is no longer contained in any
stored title, its fuzzy lookup misses, and a net-new record is created. -/
theorem claim4_counterexample_second_run_creates :
    (fetch_all_opportunities false 10
      [("feedA", Except.ok ([candSpecia, candSpec], 0))]
      (initAcc [storedDataIntern] 2)).totalNew = 0 ∧
    (fetch_all_opportunities false 20
      [("feedA", Except.ok ([candSpecia, candSpec], 0))]
      (initAcc
        (fetch_all_opportunities false 10
          [("feedA", Except.ok ([candSpecia, candSpec], 0))]
          (initAcc [storedDataIntern] 2)).db
        (fetch_all_opportunities false 10
          [("feedA", Except.ok ([candSpecia, candSpec], 0))]
          (initAcc [storedDataIntern] 2)).nextId)).totalNew = 1 ∧
    (fetch_all_opportunities false 20
      [("feedA", Except.ok ([candSpecia, candSpec], 0))]
      (initAcc
        (fetch_all_opportunities false 10
          [("feedA", Except.ok ([candSpecia, candSpec], 0))]
          (initAcc [storedDataIntern] 2)).db
        (fetch_all_opportunities false 10
          [("feedA", Except.ok ([candSpecia, candSpec], 0))]
          (initAcc [storedDataIntern] 2)).nextId)).db.length =
      (fetch_all_opportunities false 10
        [("feedA", Except.ok ([candSpecia, candSpec], 0))]
        (initAcc [storedDataIntern] 2)).db.length + 1 :=
  ⟨by decide, by decide, by decide⟩

/-- When the strong identity key is present and a non-deleted record
matches it, `deduplicate_opportunity` resolves to the first such record,
before any fuzzy matching. -/
theorem dedup_exact_hit (fuzzLib : Bool) (db : List Opportunity)
    (d : OppDict) (src sid : String) (r : Opportunity)
    (hsrc : d.source = some src) (hsid : d.source_id = some sid)
    (hsrcne : src ≠ "") (hsidne : sid ≠ "")
    (hfind : db.find? (exactMatchPred src sid) = some r) :
    deduplicate_opportunity fuzzLib db d = (some r, true) := by
  simp [deduplicate_opportunity, hsrc, hsid, hsrcne, hsidne, hfind]

/-- A full dedup miss with a truthy identity key means the exact query
found nothing. -/
theorem dedup_miss_exact_none (fuzzLib : Bool) (db : List Opportunity)
    (d : OppDict) (src sid : String)
    (hsrc : d.source = some src) (hsid : d.source_id = some sid)
    (hsrcne : src ≠ "") (hsidne : sid ≠ "")
    (hmiss : deduplicate_opportunity fuzzLib db d = (none, false)) :
    db.find? (exactMatchPred src sid) = none := by
  cases hfind : db.find? (exactMatchPred src sid) with
  | none => rfl
  | some e =>
      have := dedup_exact_hit fuzzLib db d src sid e hsrc hsid hsrcne hsidne hfind
      rw [this] at hmiss
      simp at hmiss

/-- The records created by a run that creates one record per candidate,
with consecutive ids. -/
def createAll (now : Nat) : List OppDict → Nat → List Opportunity
  | [], _ => []
  | d :: t, n => createRecord d now n :: createAll now t (n + 1)

/-- The identity key of a candidate is truthy and its per-record fields are
valid for creation. -/
def ValidKeyed (d : OppDict) : Prop :=
  (∃ src, d.source = some src ∧ src ≠ "") ∧
  (∃ sid, d.source_id = some sid ∧ sid ≠ "") ∧
  pyStrip (d.title.getD "") ≠ "" ∧
  pyStrip (d.company.getD "") ≠ "" ∧
  pyStrip (d.location.getD "") ≠ ""

/-- Two candidates have distinct identity keys and mutually non-containing
(lower-cased, stripped) titles. -/
def Independent (d1 d2 : OppDict) : Prop :=
  (d1.source, d1.source_id) ≠ (d2.source, d2.source_id) ∧
  strContains (pyLower (pyStrip (d1.title.getD "")))
    (pyLower (pyStrip (d2.title.getD ""))) = false ∧
  strContains (pyLower (pyStrip (d2.title.getD "")))
    (pyLower (pyStrip (d1.title.getD ""))) = false

/-- A stored record is unrelated to a candidate: different identity key and
its title does not contain the candidate's. -/
def Unrelated (d : OppDict) (r : Opportunity) : Prop :=
  ¬(r.source = d.source ∧ r.source_id = d.source_id) ∧
  strContains (pyLower r.title) (pyLower (pyStrip (d.title.getD ""))) = false

theorem length_createAll (now : Nat) :
    ∀ (cs : List OppDict) (n : Nat), (createAll now cs n).length = cs.length := by
  intro cs
  induction cs with
  | nil => intro n; rfl
  | cons d t ih => intro n; simp [createAll, ih]

theorem ids_createAll (now : Nat) :
    ∀ (cs : List OppDict) (n : Nat),
      (createAll now cs n).map Opportunity.id = List.range' n cs.length := by
  intro cs
  induction cs with
  | nil => intro n; rfl
  | cons d t ih => intro n; simp [createAll, List.range'_succ, ih, createRecord]

/-- On a store where every record is unrelated to every candidate, and with
valid, pairwise-independent candidates, the save loop creates exactly one
record per candidate, appended in order. -/
theorem run1_creates (fuzzLib : Bool) (now : Nat) :
    ∀ (cs : List OppDict) (db : List Opportunity) (n nc uc ec : Nat),
      (∀ d ∈ cs, ValidKeyed d) →
      cs.Pairwise Independent →
      (∀ d ∈ cs, ∀ r ∈ db, Unrelated d r) →
      processOpportunities fuzzLib now cs ⟨db, n, nc, uc, ec⟩ =
        ⟨db ++ createAll now cs n, n + cs.length, nc + cs.length, uc, ec⟩ := by
  intro cs
  induction cs with
  | nil =>
      intro db n nc uc ec hvalid hpair hcompat
      simp [processOpportunities, createAll]
  | cons d t ih =>
      intro db n nc uc ec hvalid hpair hcompat
      obtain ⟨⟨src, hsrc, hsrcne⟩, ⟨sid, hsid, hsidne⟩, htne, hcne, hlne⟩ :=
        hvalid d (by simp)
      have hfindE : db.find? (exactMatchPred src sid) = none := by
        rw [List.find?_eq_none]
        intro r hr
        have hu := (hcompat d (by simp) r hr).1
        simp only [exactMatchPred]
        rw [hsrc, hsid] at hu
        by_cases h1 : r.source = some src
        · by_cases h2 : r.source_id = some sid
          · exact absurd ⟨h1, h2⟩ hu
          · simp [h2]
        · simp [h1]
      have hfindF : db.find? (fuzzyMatchPred (pyStrip (d.title.getD ""))
          (pyStrip (d.company.getD "")) (d.type.getD "")) = none := by
        rw [List.find?_eq_none]
        intro r hr
        have hu := (hcompat d (by simp) r hr).2
        simp [fuzzyMatchPred, hu]
      have hmiss : deduplicate_opportunity fuzzLib db d = (none, false) := by
        simp [deduplicate_opportunity, hsrc, hsid, hsrcne, hsidne,
          hfindE, htne, hcne, hfindF]
      have hsave : save_or_update_opportunity fuzzLib db d now n =
          .ok (createRecord d now n, true, db ++ [createRecord d now n]) := by
        have h1 : (pyStrip (d.title.getD "") = "") = False := by simp [htne]
        have h2 : (pyStrip (d.company.getD "") = "") = False := by simp [hcne]
        have h3 : (pyStrip (d.location.getD "") = "") = False := by simp [hlne]
        simp [save_or_update_opportunity, hmiss, h1, h2, h3]
      have hstep : processOpportunities fuzzLib now (d :: t) ⟨db, n, nc, uc, ec⟩ =
          processOpportunities fuzzLib now t
            ⟨db ++ [createRecord d now n], n + 1, nc + 1, uc, ec⟩ := by
        simp [processOpportunities, List.foldl_cons, processOne, hsave]
      rw [hstep]
      have hcompat' : ∀ d' ∈ t, ∀ r ∈ db ++ [createRecord d now n], Unrelated d' r := by
        intro d' hd' r hr
        rcases List.mem_append.mp hr with hdb | hnew
        · exact hcompat d' (by simp [hd']) r hdb
        · have hrr : r = createRecord d now n := by simpa using hnew
          subst hrr
          have hind : Independent d d' := (List.pairwise_cons.mp hpair).1 d' hd'
          constructor
          · intro hcon
            have hs : d.source = d'.source := by
              simpa [createRecord] using hcon.1
            have hi : d.source_id = d'.source_id := by
              simpa [createRecord] using hcon.2
            exact hind.1 (by rw [hs, hi])
          · have : (createRecord d now n).title = pyStrip (d.title.getD "") := rfl
            rw [this]
            exact hind.2.1
      have := ih (db ++ [createRecord d now n]) (n + 1) (nc + 1) uc ec
        (fun d' hd' => hvalid d' (by simp [hd']))
        (List.pairwise_cons.mp hpair).2 hcompat'
      rw [this]
      simp [createAll, List.append_assoc]
      omega

/-- The fields of a stored record consulted by the exact identity query,
together with its persistence identity. -/
def keyView (o : Opportunity) : Nat × Option String × Option String × Option Bool :=
  (o.id, o.source, o.source_id, o.is_deleted)

theorem exactMatchPred_congr (src sid : String) {r r' : Opportunity}
    (h : keyView r = keyView r') :
    exactMatchPred src sid r = exactMatchPred src sid r' := by
  simp only [keyView, Prod.mk.injEq] at h
  simp only [exactMatchPred, h.2.1, h.2.2.1, h.2.2.2]

theorem keyView_applyUpdate (d : OppDict) (r : Opportunity) (now : Nat) :
    keyView (applyUpdate d r now) = keyView r := rfl

theorem find?_exact_congr (src sid : String) :
    ∀ (db db1 : List Opportunity), db.map keyView = db1.map keyView →
      Option.map keyView (db.find? (exactMatchPred src sid)) =
        Option.map keyView (db1.find? (exactMatchPred src sid)) := by
  intro db
  induction db with
  | nil =>
      intro db1 h
      have : db1 = [] := by
        cases db1 with
        | nil => rfl
        | cons a t => simp at h
      subst this
      rfl
  | cons r t ih =>
      intro db1 h
      cases db1 with
      | nil => simp at h
      | cons r1 t1 =>
          simp only [List.map_cons, List.cons.injEq] at h
          have hpred := exactMatchPred_congr src sid h.1
          cases hp : exactMatchPred src sid r with
          | true =>
              have hp1 : exactMatchPred src sid r1 = true := by rw [← hpred, hp]
              simp [List.find?_cons, hp, hp1, h.1]
          | false =>
              have hp1 : exactMatchPred src sid r1 = false := by rw [← hpred, hp]
              simp only [List.find?_cons, hp, hp1]
              exact ih t1 h.2

theorem commitUpdate_length (db : List Opportunity) (i : Nat) (u : Opportunity) :
    (commitUpdate db i u).length = db.length := by
  simp [commitUpdate]

theorem commitUpdate_keyView (db : List Opportunity) (e upd : Opportunity)
    (he : e ∈ db) (hnodup : (db.map Opportunity.id).Nodup)
    (hkv : keyView upd = keyView e) :
    (commitUpdate db e.id upd).map keyView = db.map keyView := by
  simp only [commitUpdate, List.map_map]
  apply List.map_congr_left
  intro o ho
  by_cases hid : o.id = e.id
  · have hoe : o = e := List.inj_on_of_nodup_map hnodup ho he hid
    subst hoe
    simp [hid, hkv]
  · simp [Function.comp, hid]

/-- If every candidate's exact identity key is present in the reference
store's key view, the save loop never creates: it only updates, preserving
length and the key view. -/
theorem run2_no_creates (fuzzLib : Bool) (now : Nat) :
    ∀ (cs : List OppDict) (db db1 : List Opportunity) (n nc uc ec : Nat),
      db.map keyView = db1.map keyView →
      (db1.map Opportunity.id).Nodup →
      (∀ d ∈ cs, ∃ src sid, d.source = some src ∧ d.source_id = some sid ∧
        src ≠ "" ∧ sid ≠ "" ∧ (db1.find? (exactMatchPred src sid)).isSome) →
      (processOpportunities fuzzLib now cs ⟨db, n, nc, uc, ec⟩).newCount = nc ∧
      (processOpportunities fuzzLib now cs ⟨db, n, nc, uc, ec⟩).db.length = db.length ∧
      (processOpportunities fuzzLib now cs ⟨db, n, nc, uc, ec⟩).db.map keyView =
        db1.map keyView := by
  intro cs
  induction cs with
  | nil =>
      intro db db1 n nc uc ec hmap hnodup hkeys
      exact ⟨rfl, rfl, hmap⟩
  | cons d t ih =>
      intro db db1 n nc uc ec hmap hnodup hkeys
      obtain ⟨src, sid, hsrc, hsid, hsrcne, hsidne, hisSome⟩ := hkeys d (by simp)
      obtain ⟨e1, he1⟩ := Option.isSome_iff_exists.mp hisSome
      have hcongr := find?_exact_congr src sid db db1 hmap
      rw [he1] at hcongr
      cases hfind : db.find? (exactMatchPred src sid) with
      | none => rw [hfind] at hcongr; simp at hcongr
      | some e =>
          have hmem : e ∈ db := List.mem_of_find?_eq_some hfind
          have hdup := dedup_exact_hit fuzzLib db d src sid e hsrc hsid
            hsrcne hsidne hfind
          have hsave : save_or_update_opportunity fuzzLib db d now n =
              .ok (applyUpdate d e now, false,
                commitUpdate db e.id (applyUpdate d e now)) := by
            simp [save_or_update_opportunity, hdup]
          have hstep : processOpportunities fuzzLib now (d :: t) ⟨db, n, nc, uc, ec⟩ =
              processOpportunities fuzzLib now t
                ⟨commitUpdate db e.id (applyUpdate d e now), n, nc, uc + 1, ec⟩ := by
            simp [processOpportunities, List.foldl_cons, processOne, hsave]
          have hnodupdb : (db.map Opportunity.id).Nodup := by
            have : db.map Opportunity.id = db1.map Opportunity.id := by
              have h1 : db.map Opportunity.id =
                  (db.map keyView).map (fun kv => kv.1) := by
                simp [List.map_map, keyView, Function.comp]
              have h2 : db1.map Opportunity.id =
                  (db1.map keyView).map (fun kv => kv.1) := by
                simp [List.map_map, keyView, Function.comp]
              rw [h1, h2, hmap]
            rw [this]
            exact hnodup
          have hmap' : (commitUpdate db e.id (applyUpdate d e now)).map keyView =
              db1.map keyView := by
            rw [commitUpdate_keyView db e (applyUpdate d e now) hmem hnodupdb
              (keyView_applyUpdate d e now), hmap]
          rw [hstep]
          have := ih (commitUpdate db e.id (applyUpdate d e now)) db1 n nc (uc + 1) ec
            hmap' hnodup (fun d' hd' => hkeys d' (by simp [hd']))
          refine ⟨this.1, ?_, this.2.2⟩
          rw [this.2.1, commitUpdate_length]

theorem createAll_mem (now : Nat) :
    ∀ (cs : List OppDict) (n : Nat) (d : OppDict), d ∈ cs →
      ∃ m, createRecord d now m ∈ createAll now cs n := by
  intro cs
  induction cs with
  | nil => intro n d hd; simp at hd
  | cons d0 t ih =>
      intro n d hd
      rcases List.mem_cons.mp hd with h | h
      · exact ⟨n, by rw [h]; simp [createAll]⟩
      · obtain ⟨m, hm⟩ := ih (n + 1) d h
        exact ⟨m, by simp [createAll, hm]⟩

/-- C4 (amended): (1) two candidates with the same truthy identity key
resolve — exact matching first — to the same non-deleted stored record
whenever one matches that key, regardless of all other fields; (2)
submitting a candidate twice (miss first) yields `is_new = true` and then
`is_new = false` on the record with the same persistence identity; (3)
re-running the save loop on unchanged upstream data creates zero net new
records when starting from empty storage with valid, pairwise-independent
candidates (distinct identity keys, titles not containing one another), so
every re-run save resolves through the exact identity key.  Without those
provisos idempotence fails (see the counterexample). -/
theorem claim4_exact_identity_and_idempotence :
    (∀ (fuzzLib : Bool) (db : List Opportunity) (d1 d2 : OppDict)
        (src sid : String) (r : Opportunity),
      d1.source = some src → d1.source_id = some sid →
      d2.source = some src → d2.source_id = some sid →
      src ≠ "" → sid ≠ "" →
      db.find? (exactMatchPred src sid) = some r →
      deduplicate_opportunity fuzzLib db d1 = (some r, true) ∧
      deduplicate_opportunity fuzzLib db d2 = (some r, true)) ∧
    (∀ (fuzzLib : Bool) (db : List Opportunity) (d : OppDict)
        (now1 now2 id1 id2 : Nat) (src sid : String),
      d.source = some src → d.source_id = some sid →
      src ≠ "" → sid ≠ "" →
      pyStrip (d.title.getD "") ≠ "" → pyStrip (d.company.getD "") ≠ "" →
      pyStrip (d.location.getD "") ≠ "" →
      deduplicate_opportunity fuzzLib db d = (none, false) →
      save_or_update_opportunity fuzzLib db d now1 id1 =
        .ok (createRecord d now1 id1, true, db ++ [createRecord d now1 id1]) ∧
      ∃ r2, save_or_update_opportunity fuzzLib
          (db ++ [createRecord d now1 id1]) d now2 id2 =
          .ok (r2, false, commitUpdate (db ++ [createRecord d now1 id1])
            (createRecord d now1 id1).id r2) ∧
        r2.id = id1) ∧
    (∀ (fuzzLib : Bool) (now1 now2 n0 : Nat) (cs : List OppDict),
      (∀ d ∈ cs, ValidKeyed d) → cs.Pairwise Independent →
      (processOpportunities fuzzLib now1 cs ⟨[], n0, 0, 0, 0⟩).newCount = cs.length ∧
      (processOpportunities fuzzLib now2 cs
        ⟨(processOpportunities fuzzLib now1 cs ⟨[], n0, 0, 0, 0⟩).db,
         (processOpportunities fuzzLib now1 cs ⟨[], n0, 0, 0, 0⟩).nextId,
         0, 0, 0⟩).newCount = 0 ∧
      (processOpportunities fuzzLib now2 cs
        ⟨(processOpportunities fuzzLib now1 cs ⟨[], n0, 0, 0, 0⟩).db,
         (processOpportunities fuzzLib now1 cs ⟨[], n0, 0, 0, 0⟩).nextId,
         0, 0, 0⟩).db.length =
        (processOpportunities fuzzLib now1 cs ⟨[], n0, 0, 0, 0⟩).db.length) := by
  refine ⟨?_, ?_, ?_⟩
  · intro fuzzLib db d1 d2 src sid r h1s h1i h2s h2i hsne hine hfind
    exact ⟨dedup_exact_hit fuzzLib db d1 src sid r h1s h1i hsne hine hfind,
      dedup_exact_hit fuzzLib db d2 src sid r h2s h2i hsne hine hfind⟩
  · intro fuzzLib db d now1 now2 id1 id2 src sid hsrc hsid hsne hine
      htne hcne hlne hmiss
    have h1 : (pyStrip (d.title.getD "") = "") = False := by simp [htne]
    have h2 : (pyStrip (d.company.getD "") = "") = False := by simp [hcne]
    have h3 : (pyStrip (d.location.getD "") = "") = False := by simp [hlne]
    have hsave1 : save_or_update_opportunity fuzzLib db d now1 id1 =
        .ok (createRecord d now1 id1, true, db ++ [createRecord d now1 id1]) := by
      simp [save_or_update_opportunity, hmiss, h1, h2, h3]
    refine ⟨hsave1, applyUpdate d (createRecord d now1 id1) now2, ?_, rfl⟩
    have hnone : db.find? (exactMatchPred src sid) = none :=
      dedup_miss_exact_none fuzzLib db d src sid hsrc hsid hsne hine hmiss
    have hpred : exactMatchPred src sid (createRecord d now1 id1) = true := by
      simp [exactMatchPred, createRecord, hsrc, hsid]
    have hfind2 : (db ++ [createRecord d now1 id1]).find?
        (exactMatchPred src sid) = some (createRecord d now1 id1) := by
      rw [List.find?_append, hnone]
      simp [List.find?_cons, hpred]
    have hdup := dedup_exact_hit fuzzLib (db ++ [createRecord d now1 id1]) d
      src sid (createRecord d now1 id1) hsrc hsid hsne hine hfind2
    simp [save_or_update_opportunity, hdup]
  · intro fuzzLib now1 now2 n0 cs hvalid hpair
    have hrun1 := run1_creates fuzzLib now1 cs [] n0 0 0 0 hvalid hpair
      (by intro d hd r hr; simp at hr)
    have hnodup : ((createAll now1 cs n0).map Opportunity.id).Nodup := by
      rw [ids_createAll]
      exact List.nodup_range' _ _
    have hkeys : ∀ d ∈ cs, ∃ src sid, d.source = some src ∧
        d.source_id = some sid ∧ src ≠ "" ∧ sid ≠ "" ∧
        ((createAll now1 cs n0).find? (exactMatchPred src sid)).isSome := by
      intro d hd
      obtain ⟨⟨src, hsrc, hsne⟩, ⟨sid, hsid, hine⟩, _, _, _⟩ := hvalid d hd
      obtain ⟨m, hm⟩ := createAll_mem now1 cs n0 d hd
      refine ⟨src, sid, hsrc, hsid, hsne, hine, ?_⟩
      rw [List.find?_isSome]
      exact ⟨createRecord d now1 m, hm, by simp [exactMatchPred, createRecord, hsrc, hsid]⟩
    have hrun2 := run2_no_creates fuzzLib now2 cs (createAll now1 cs n0)
      (createAll now1 cs n0) (n0 + cs.length) 0 0 0 rfl hnodup hkeys
    rw [hrun1]
    simp only [List.nil_append]
    exact ⟨by omega, hrun2.1, by rw [hrun2.2.1]⟩

/-- Witness for C4: the twice-submission scenario and a one-candidate
re-run, at concrete inputs. -/
theorem claim4_exact_identity_and_idempotence_witness :
    save_or_update_opportunity false [] candHiringFull 1 100 =
      .ok (createRecord candHiringFull 1 100, true, [createRecord candHiringFull 1 100]) ∧
    (∃ r2, save_or_update_opportunity false [createRecord candHiringFull 1 100]
        candHiringFull 2 101 =
        .ok (r2, false, commitUpdate [createRecord candHiringFull 1 100]
          (createRecord candHiringFull 1 100).id r2) ∧
      r2.id = 100) ∧
    (processOpportunities false 7 [candHiringFull]
      ⟨(processOpportunities false 3 [candHiringFull] ⟨[], 5, 0, 0, 0⟩).db,
       (processOpportunities false 3 [candHiringFull] ⟨[], 5, 0, 0, 0⟩).nextId,
       0, 0, 0⟩).newCount = 0 := by
  have h2 := claim4_exact_identity_and_idempotence.2.1 false [] candHiringFull
    1 2 100 101 "feedA" "123" rfl rfl (by decide) (by decide) (by decide)
    (by decide) (by decide) (by decide)
  have h3 := claim4_exact_identity_and_idempotence.2.2 false 3 7 5 [candHiringFull]
    (by
      intro d hd
      have hdd : d = candHiringFull := by simpa using hd
      subst hdd
      exact ⟨⟨"feedA", rfl, by decide⟩, ⟨"123", rfl, by decide⟩,
        by decide, by decide, by decide⟩)
    (by simp)
  have h2' := h2.2
  exact ⟨by simpa using h2.1, by simpa using h2', h3.2.1⟩

end CampusClimb
